import Mathlib

/-!
# yasl: the shopping-list repository

A shallow embedding of `internal/model/model.go` and
`internal/repository/repository.go`.

Every method of `Repository` sends exactly one SQL statement to an SQLite
connection.  The embedding therefore has two layers:

* the statement layer (`execInsertList`, `execDeleteList`, ...): what the
  engine does with each of the eleven statement texts of repository.go under
  the schema of `Repository.init`.  Both tables are rowid tables whose
  `id INTEGER PRIMARY KEY AUTOINCREMENT` column is the rowid; a table is kept
  as the list of its rows in rowid order, which is the order a full scan
  (`SELECT` without `ORDER BY`, no index on `list_id`) returns them in;
* the method layer (`Repository.CreateList`, ...): the Go wrappers, which
  pass the engine error through and return `0` as id on error.

The store state is passed explicitly: a method takes the repository and
returns its Go results paired with the repository afterwards.

What the statement layer takes from the engine:

* `PRAGMA foreign_keys` is OFF on a connection unless the connection is told
  otherwise; the `FOREIGN KEY ... ON DELETE CASCADE` clause of the schema is
  parsed and stored either way, and acted on only when the pragma is ON;
* an AUTOINCREMENT rowid is one more than the larger of the largest rowid in
  the table and the table's counter in `sqlite_sequence`; the counter never
  goes down, and when it stands at `2^63 - 1` an INSERT fails with SQLITE_FULL;
* a text value bound to a statement may have at most `10^9` bytes, and so may
  the record of a row (its header and the bytes of its columns); a statement
  that binds a longer text or would write a longer record fails with
  SQLITE_TOOBIG, "string or blob too big";
* each statement is its own transaction: a statement that fails changes
  nothing.

The statement layer describes the engine on a store that has room: running out
of storage (disk, memory, the size limit of the database file) is not part of
it.

Ids are Go `int64`; they are kept as `Int`, and the one place where the width
matters, the rowid allocator, carries the bound `MAX_ROWID`.  Go strings are
kept as `String`, their length in bytes is `String.utf8ByteSize`.
-/

/-! ## internal/model/model.go -/

/-- Go struct `model.List`. -/
structure model.List where
  ID : Int
  Name : String
deriving DecidableEq

/-- Go struct `model.Item`. -/
structure model.Item where
  ID : Int
  ListID : Int
  Name : String
  Category : String
  Checked : Bool
deriving DecidableEq

/-! ## The engine: state and statements -/

/-- Largest rowid of the engine, `2^63 - 1` (the ids are Go `int64`). -/
def MAX_ROWID : Int := 9223372036854775807

/-- The engine's limit on the bytes of a text value and of a row record,
SQLITE_MAX_LENGTH. -/
def SQLITE_MAX_LENGTH : Nat := 1000000000

/-- Errors the engine raises for the statements of repository.go:
`full` is SQLITE_FULL (the AUTOINCREMENT counter is used up),
`foreignKey` is "FOREIGN KEY constraint failed",
`tooBig` is SQLITE_TOOBIG, "string or blob too big". -/
inductive SqlError where
  | full
  | foreignKey
  | tooBig
deriving DecidableEq

/-- Bytes of the variable-length integer that holds `v` in a record header:
seven bits to the byte. -/
def varintLen (v : Nat) : Nat :=
  if v < 2 ^ 7 then 1
  else if v < 2 ^ 14 then 2
  else if v < 2 ^ 21 then 3
  else if v < 2 ^ 28 then 4
  else if v < 2 ^ 35 then 5
  else if v < 2 ^ 42 then 6
  else if v < 2 ^ 49 then 7
  else if v < 2 ^ 56 then 8
  else 9

/-- Bytes the value of an integer column takes in a record: none for `0` and
`1` (the serial type alone tells them), else 1, 2, 3, 4, 6 or 8 bytes, the
fewest that hold the value in two's complement. -/
def intDataLen (i : Int) : Nat :=
  let u : Int := if i < 0 then -i - 1 else i
  if u ≤ 127 then (if i = 0 ∨ i = 1 then 0 else 1)
  else if u ≤ 32767 then 2
  else if u ≤ 8388607 then 3
  else if u ≤ 2147483647 then 4
  else if u ≤ 140737488355327 then 6
  else 8

/-- Bytes of the record of a row of `lists`: one byte for the header length,
one for the serial type of `id` (the rowid holds the id, the record a NULL),
the serial type of `name` (`2 * bytes + 13` as a varint) and the bytes of
`name`. -/
def listRecordSize (name : String) : Nat :=
  1 + 1 + varintLen (2 * name.utf8ByteSize + 13) + name.utf8ByteSize

/-- Bytes of the record of a row of `items`: one byte for the header length,
one each for the serial types of `id` (NULL), `list_id` and `checked`
(`0` or `1`, no bytes of its own), the serial types of `name` and `category`,
and the bytes of `list_id`, `name` and `category`. -/
def itemRecordSize (listID : Int) (name category : String) : Nat :=
  1 + 1 + 1 + varintLen (2 * name.utf8ByteSize + 13) +
    varintLen (2 * category.utf8ByteSize + 13) + 1 +
    intDataLen listID + name.utf8ByteSize + category.utf8ByteSize

/-- Bytes of the record of an `items` row. -/
def model.Item.recordSize (i : model.Item) : Nat :=
  itemRecordSize i.ListID i.Name i.Category

/-- Content of the store file: the rows of `lists` and of `items` in rowid
order, and the two counters the engine keeps in `sqlite_sequence` for the
AUTOINCREMENT columns (`0` while a table has no entry there).  Rows of
`lists` have the columns of `model.List`, rows of `items` those of
`model.Item` (`checked BOOLEAN` holds `0`/`1`, kept as a `Bool`). -/
structure Tables where
  lists : List model.List
  items : List model.Item
  seqLists : Int
  seqItems : Int
deriving DecidableEq

/-- A store file without rows: what `CREATE TABLE IF NOT EXISTS` leaves when
the file is new. -/
def Tables.empty : Tables := { lists := [], items := [], seqLists := 0, seqItems := 0 }

/-- The handle `*sql.DB`: the content of the store together with the one
connection setting the statements depend on, `PRAGMA foreign_keys`. -/
structure sql.DB where
  foreignKeys : Bool
  tables : Tables
deriving DecidableEq

/-- Go struct `Repository`. -/
structure Repository where
  DB : sql.DB
deriving DecidableEq

/-- What the value of a `_pragma` parameter of a data source name does to
foreign-key enforcement.  The driver sends `PRAGMA <value>` on the new
connection; the engine reads `foreign_keys` with a value in brackets or after
`=`, in any letter case, `1`, `on`, `true`, `yes` for ON and `0`, `off`,
`false`, `no` for OFF; blanks between the words are dropped before the text
is compared.  Any other pragma leaves the setting as it is.  The data source
name of `NewRepository` has no `_pragma` parameter, so no call of the
repository gets here. -/
def pragmaForeignKeys (value : String) : Option Bool :=
  let v := String.mk ((value.toList.filter (fun c => c != ' ')).map Char.toLower)
  if ["foreign_keys(1)", "foreign_keys(on)", "foreign_keys(true)", "foreign_keys(yes)",
      "foreign_keys=1", "foreign_keys=on", "foreign_keys=true", "foreign_keys=yes"].contains v
  then some true
  else if ["foreign_keys(0)", "foreign_keys(off)", "foreign_keys(false)", "foreign_keys(no)",
      "foreign_keys=0", "foreign_keys=off", "foreign_keys=false", "foreign_keys=no"].contains v
  then some false
  else none

/-- Go `sql.Open("sqlite", dsn)` on a store file with content `file`, the data
source name given by its query parameters.  The engine's default for
`foreign_keys` is OFF; the `_pragma` parameters are applied in order. -/
def sql.Open (params : List (String × String)) (file : Tables) : sql.DB :=
  { foreignKeys := params.foldl
      (fun fk p => if p.1 == "_pragma" then (pragmaForeignKeys p.2).getD fk else fk) false
    tables := file }

/-- Rowid the engine gives a new row of an AUTOINCREMENT table whose largest
present rowid is `last` (`none` for an empty table) and whose
`sqlite_sequence` counter is `seq`: one more than the larger of the two, and
SQLITE_FULL instead of a reused or random rowid once `MAX_ROWID` was given
out. -/
def newRowid (last : Option Int) (seq : Int) : Except SqlError Int :=
  if seq = MAX_ROWID ∨ last = some MAX_ROWID then .error .full
  else
    let v : Int := match last with
      | none => 1
      | some m => m + 1
    .ok (if v < seq + 1 then seq + 1 else v)

/-- Statement `INSERT INTO lists (name) VALUES (?)`; returns the last insert id.
The engine refuses the text when it is bound, then takes the rowid, then
refuses the record when it builds it. -/
def execInsertList (db : sql.DB) (name : String) : Except SqlError (Int × sql.DB) :=
  if SQLITE_MAX_LENGTH < name.utf8ByteSize then .error .tooBig
  else
    match newRowid (db.tables.lists.getLast?.map (·.ID)) db.tables.seqLists with
    | .error e => .error e
    | .ok id =>
      if SQLITE_MAX_LENGTH < listRecordSize name then .error .tooBig
      else
        .ok (id, { db with tables := { db.tables with
                     lists := db.tables.lists ++ [{ ID := id, Name := name }]
                     seqLists := id } })

/-- Statement `DELETE FROM lists WHERE id = ?`.  The `ON DELETE CASCADE` action
of `items.list_id` runs for a deleted parent row, and only on a connection
that enforces foreign keys. -/
def execDeleteList (db : sql.DB) (id : Int) : Except SqlError sql.DB :=
  let t := db.tables
  if db.foreignKeys && t.lists.any (fun l => l.ID == id) then
    .ok { db with tables := { t with
            lists := t.lists.filter (fun l => !(l.ID == id))
            items := t.items.filter (fun i => !(i.ListID == id)) } }
  else
    .ok { db with tables := { t with lists := t.lists.filter (fun l => !(l.ID == id)) } }

/-- Statement `SELECT id, name FROM lists`, scanned row by row into `model.List`. -/
def queryLists (db : sql.DB) : Except SqlError (List model.List) :=
  .ok db.tables.lists

/-- Statement `INSERT INTO items (list_id, name, category) VALUES (?, ?, ?)`;
`checked` takes its column default `0`.  The engine refuses a text when it is
bound, then takes the rowid, then refuses the record when it builds it; the
parent row is looked up last, and only on a connection that enforces foreign
keys. -/
def execInsertItem (db : sql.DB) (listID : Int) (name category : String) :
    Except SqlError (Int × sql.DB) :=
  if SQLITE_MAX_LENGTH < name.utf8ByteSize ∨ SQLITE_MAX_LENGTH < category.utf8ByteSize then
    .error .tooBig
  else
    match newRowid (db.tables.items.getLast?.map (·.ID)) db.tables.seqItems with
    | .error e => .error e
    | .ok id =>
      if SQLITE_MAX_LENGTH < itemRecordSize listID name category then .error .tooBig
      else if db.foreignKeys && !(db.tables.lists.any (fun l => l.ID == listID)) then
        .error .foreignKey
      else
        .ok (id, { db with tables := { db.tables with
                     items := db.tables.items ++
                       [{ ID := id, ListID := listID, Name := name,
                          Category := category, Checked := false }]
                     seqItems := id } })

/-- Statement `DELETE FROM items WHERE id = ?`. -/
def execDeleteItem (db : sql.DB) (id : Int) : Except SqlError sql.DB :=
  .ok { db with tables := { db.tables with
          items := db.tables.items.filter (fun i => !(i.ID == id)) } }

/-- Statement `SELECT id, list_id, name, category, checked FROM items WHERE
list_id = ?`, scanned row by row into `model.Item`. -/
def queryItems (db : sql.DB) (listID : Int) : Except SqlError (List model.Item) :=
  .ok (db.tables.items.filter (fun i => i.ListID == listID))

/-- Whether an `UPDATE items SET ... WHERE id = ?` that turns a row `i` into
`f i` would write a record over the limit: the engine builds the record of
every row of that id anew. -/
def updateTooBig (items : List model.Item) (id : Int) (f : model.Item → model.Item) : Bool :=
  items.any (fun i => i.ID == id && decide (SQLITE_MAX_LENGTH < (f i).recordSize))

/-- Statement `UPDATE items SET checked = ? WHERE id = ?`. -/
def execUpdateChecked (db : sql.DB) (checked : Bool) (id : Int) : Except SqlError sql.DB :=
  if updateTooBig db.tables.items id (fun i => { i with Checked := checked }) then
    .error .tooBig
  else
    .ok { db with tables := { db.tables with
            items := db.tables.items.map
              (fun i => if i.ID == id then { i with Checked := checked } else i) } }

/-- Statement `UPDATE items SET category = ? WHERE id = ?`.  The engine refuses
the text when it is bound, whether or not a row has that id. -/
def execUpdateCategory (db : sql.DB) (category : String) (id : Int) : Except SqlError sql.DB :=
  if SQLITE_MAX_LENGTH < category.utf8ByteSize then .error .tooBig
  else if updateTooBig db.tables.items id (fun i => { i with Category := category }) then
    .error .tooBig
  else
    .ok { db with tables := { db.tables with
            items := db.tables.items.map
              (fun i => if i.ID == id then { i with Category := category } else i) } }

/-- Statement `UPDATE items SET name = ? WHERE id = ?`.  The engine refuses the
text when it is bound, whether or not a row has that id. -/
def execUpdateName (db : sql.DB) (name : String) (id : Int) : Except SqlError sql.DB :=
  if SQLITE_MAX_LENGTH < name.utf8ByteSize then .error .tooBig
  else if updateTooBig db.tables.items id (fun i => { i with Name := name }) then
    .error .tooBig
  else
    .ok { db with tables := { db.tables with
            items := db.tables.items.map
              (fun i => if i.ID == id then { i with Name := name } else i) } }

/-- Statement `DELETE FROM items WHERE list_id = ? AND checked = 1`. -/
def execDeleteChecked (db : sql.DB) (listID : Int) : Except SqlError sql.DB :=
  .ok { db with tables := { db.tables with
          items := db.tables.items.filter (fun i => !(i.ListID == listID && i.Checked)) } }

/-- Statement `UPDATE items SET list_id = ? WHERE id = ?`.  The record of the
row is built anew, and a `list_id` that takes more bytes can push it over the
limit.  On a connection that enforces foreign keys the statement then fails,
changing nothing, when it would give a row a `list_id` without parent row. -/
def execUpdateListID (db : sql.DB) (newListID id : Int) : Except SqlError sql.DB :=
  if updateTooBig db.tables.items id (fun i => { i with ListID := newListID }) then
    .error .tooBig
  else if db.foreignKeys && db.tables.items.any (fun i => i.ID == id) &&
      !(db.tables.lists.any (fun l => l.ID == newListID)) then
    .error .foreignKey
  else
    .ok { db with tables := { db.tables with
            items := db.tables.items.map
              (fun i => if i.ID == id then { i with ListID := newListID } else i) } }

/-! ## internal/repository/repository.go -/

/-- Query parameters of the data source name of `NewRepository`,
`file:yasl.db?cache=shared&mode=rwc`. -/
def dataSourceParams : List (String × String) := [("cache", "shared"), ("mode", "rwc")]

/-- Method `Repository.init`: the schema statement.  `CREATE TABLE IF NOT EXISTS`
leaves the rows of an existing table alone and creates a missing table without
rows, which `Tables` does not tell apart; it sets no pragma. -/
def Repository.init (r : Repository) : Option SqlError × Repository :=
  (none, r)

/-- Function `NewRepository` on a store file with content `file`
(`Tables.empty` when yasl.db does not exist yet). -/
def NewRepository (file : Tables) : Repository × Option SqlError :=
  let repo : Repository := { DB := sql.Open dataSourceParams file }
  match repo.init with
  | (some err, _) => (repo, some err)
  | (none, repo') => (repo', none)

/-- Method `Repository.CreateList`. -/
def Repository.CreateList (r : Repository) (name : String) :
    (Int × Option SqlError) × Repository :=
  match execInsertList r.DB name with
  | .error err => ((0, some err), r)
  | .ok (id, db) => ((id, none), { DB := db })

/-- Method `Repository.DeleteList`. -/
def Repository.DeleteList (r : Repository) (id : Int) : Option SqlError × Repository :=
  match execDeleteList r.DB id with
  | .error err => (some err, r)
  | .ok db => (none, { DB := db })

/-- Method `Repository.GetLists`. -/
def Repository.GetLists (r : Repository) : List model.List × Option SqlError :=
  match queryLists r.DB with
  | .error err => ([], some err)
  | .ok rows => (rows, none)

/-- Method `Repository.CreateItem`. -/
def Repository.CreateItem (r : Repository) (listID : Int) (name category : String) :
    (Int × Option SqlError) × Repository :=
  match execInsertItem r.DB listID name category with
  | .error err => ((0, some err), r)
  | .ok (id, db) => ((id, none), { DB := db })

/-- Method `Repository.DeleteItem`. -/
def Repository.DeleteItem (r : Repository) (id : Int) : Option SqlError × Repository :=
  match execDeleteItem r.DB id with
  | .error err => (some err, r)
  | .ok db => (none, { DB := db })

/-- Method `Repository.GetItems`. -/
def Repository.GetItems (r : Repository) (listID : Int) : List model.Item × Option SqlError :=
  match queryItems r.DB listID with
  | .error err => ([], some err)
  | .ok rows => (rows, none)

/-- Method `Repository.UpdateItemChecked`. -/
def Repository.UpdateItemChecked (r : Repository) (id : Int) (checked : Bool) :
    Option SqlError × Repository :=
  match execUpdateChecked r.DB checked id with
  | .error err => (some err, r)
  | .ok db => (none, { DB := db })

/-- Method `Repository.UpdateItemCategory`. -/
def Repository.UpdateItemCategory (r : Repository) (id : Int) (category : String) :
    Option SqlError × Repository :=
  match execUpdateCategory r.DB category id with
  | .error err => (some err, r)
  | .ok db => (none, { DB := db })

/-- Method `Repository.UpdateItemName`. -/
def Repository.UpdateItemName (r : Repository) (id : Int) (name : String) :
    Option SqlError × Repository :=
  match execUpdateName r.DB name id with
  | .error err => (some err, r)
  | .ok db => (none, { DB := db })

/-- Method `Repository.ClearCheckedItems`. -/
def Repository.ClearCheckedItems (r : Repository) (listID : Int) :
    Option SqlError × Repository :=
  match execDeleteChecked r.DB listID with
  | .error err => (some err, r)
  | .ok db => (none, { DB := db })

/-- Method `Repository.MoveItemToList`. -/
def Repository.MoveItemToList (r : Repository) (itemID newListID : Int) :
    Option SqlError × Repository :=
  match execUpdateListID r.DB newListID itemID with
  | .error err => (some err, r)
  | .ok db => (none, { DB := db })

/-! ## Store states and sequences of calls -/

/-- Rows of a rowid table in strictly increasing rowid order, every rowid
positive and at most the AUTOINCREMENT counter `seq` of the table. -/
def RowsOK {α : Type} (rowid : α → Int) (rows : List α) (seq : Int) : Prop :=
  rows.Pairwise (fun a b => rowid a < rowid b) ∧ ∀ x ∈ rows, 0 < rowid x ∧ rowid x ≤ seq

/-- The invariant of the store that the methods of `Repository` keep: in both
tables the rows are in strictly increasing rowid order, every rowid is positive
and at most the counter of its table, and neither counter passed `MAX_ROWID`. -/
def Tables.WF (t : Tables) : Prop :=
  (0 ≤ t.seqLists ∧ t.seqLists ≤ MAX_ROWID) ∧
  (0 ≤ t.seqItems ∧ t.seqItems ≤ MAX_ROWID) ∧
  RowsOK model.List.ID t.lists t.seqLists ∧
  RowsOK model.Item.ID t.items t.seqItems

instance (t : Tables) : Decidable t.WF := by
  unfold Tables.WF RowsOK
  infer_instance

/-- A repository over a store that satisfies the invariant.  Every store state
the repository gets to from a new store does (`Reachable.WF`), whatever the
calls were. -/
def Repository.WF (r : Repository) : Prop := r.DB.tables.WF

instance (r : Repository) : Decidable r.WF := by
  unfold Repository.WF
  infer_instance

/-- The second invariant of the store: the record of every row of `items` is
within the engine's limit.  The engine writes no other rows. -/
def Repository.Fits (r : Repository) : Prop :=
  ∀ i ∈ r.DB.tables.items, i.recordSize ≤ SQLITE_MAX_LENGTH

/-- A text of `n` bytes: `n` times the letter a. -/
def textOfSize (n : Nat) : String := String.mk (List.replicate n 'a')

/-- One call of a method of `Repository`. -/
inductive Op where
  | CreateList (name : String)
  | DeleteList (id : Int)
  | GetLists
  | CreateItem (listID : Int) (name category : String)
  | DeleteItem (id : Int)
  | GetItems (listID : Int)
  | UpdateItemChecked (id : Int) (checked : Bool)
  | UpdateItemCategory (id : Int) (category : String)
  | UpdateItemName (id : Int) (name : String)
  | ClearCheckedItems (listID : Int)
  | MoveItemToList (itemID newListID : Int)

/-- The repository after the call. -/
def Op.apply (op : Op) (r : Repository) : Repository :=
  match op with
  | .CreateList name => (r.CreateList name).2
  | .DeleteList id => (r.DeleteList id).2
  | .GetLists => r
  | .CreateItem listID name category => (r.CreateItem listID name category).2
  | .DeleteItem id => (r.DeleteItem id).2
  | .GetItems _ => r
  | .UpdateItemChecked id checked => (r.UpdateItemChecked id checked).2
  | .UpdateItemCategory id category => (r.UpdateItemCategory id category).2
  | .UpdateItemName id name => (r.UpdateItemName id name).2
  | .ClearCheckedItems listID => (r.ClearCheckedItems listID).2
  | .MoveItemToList itemID newListID => (r.MoveItemToList itemID newListID).2

/-- The list id the call returns, when it is a `CreateList` that succeeds. -/
def Op.createdList (op : Op) (r : Repository) : Option Int :=
  match op with
  | .CreateList name =>
    match (r.CreateList name).1 with
    | (id, none) => some id
    | (_, some _) => none
  | _ => none

/-- The item id the call returns, when it is a `CreateItem` that succeeds. -/
def Op.createdItem (op : Op) (r : Repository) : Option Int :=
  match op with
  | .CreateItem listID name category =>
    match (r.CreateItem listID name category).1 with
    | (id, none) => some id
    | (_, some _) => none
  | _ => none

/-- The repository after a sequence of calls, made in order. -/
def runOps : List Op → Repository → Repository
  | [], r => r
  | op :: ops, r => runOps ops (op.apply r)

/-- The ids returned by the successful `CreateList` calls of a sequence of
calls, in call order. -/
def createdListIDs : List Op → Repository → List Int
  | [], _ => []
  | op :: ops, r => (op.createdList r).toList ++ createdListIDs ops (op.apply r)

/-- The ids returned by the successful `CreateItem` calls of a sequence of
calls, in call order. -/
def createdItemIDs : List Op → Repository → List Int
  | [], _ => []
  | op :: ops, r => (op.createdItem r).toList ++ createdItemIDs ops (op.apply r)

/-- A store state the repository gets to by calls of its methods, starting
from a store file that did not exist. -/
def Reachable (r : Repository) : Prop :=
  ∃ ops : List Op, runOps ops (NewRepository Tables.empty).1 = r

/-- The loop of TestCreateAndGetItems: `CreateItem(listID, name, category)` for
each pair in order; returns what each call returned and the repository after
the last call. -/
def createItems (r : Repository) (listID : Int) :
    List (String × String) → List (Int × Option SqlError) × Repository
  | [] => ([], r)
  | p :: ps =>
    let res := r.CreateItem listID p.1 p.2
    let rest := createItems res.2 listID ps
    (res.1 :: rest.1, rest.2)

/-! ## Stores and call sequences of the tests, and helpers to state the claims -/

/-- Create a list and delete it again, `n` times over: the calls that leave a
store without rows whose list counter stands at `n`. -/
def listRounds : Nat → List Op
  | 0 => []
  | n + 1 => listRounds n ++ [Op.CreateList "", Op.DeleteList (n + 1)]

/-- The store without rows whose list counter reached `MAX_ROWID`. -/
def listCounterUsedUp : Tables :=
  { lists := [], items := [], seqLists := MAX_ROWID, seqItems := 0 }

/-- The store of TestGetLists after its first two `CreateList` calls. -/
def twoListsStore : Repository :=
  runOps [Op.CreateList "List 1", Op.CreateList "List 2"] (NewRepository Tables.empty).1

/-- The row `GetItems` is to return for a `CreateItem(listID, name, category)`
call that returned `out`. -/
def createdItem (listID : Int) (out : Int × Option SqlError) (p : String × String) :
    model.Item :=
  { ID := out.1, ListID := listID, Name := p.1, Category := p.2, Checked := false }

/-- The repeated create-and-delete of an item, `n` times over: the calls that
leave the table `items` without rows and its counter at `n`. -/
def itemRounds : Nat → List Op
  | 0 => []
  | n + 1 => itemRounds n ++ [Op.CreateItem 1 "" "", Op.DeleteItem (n + 1)]

/-- The store of TestCreateAndGetItems before its first `CreateItem`, with the
item counter at `MAX_ROWID`. -/
def itemCounterUsedUp : Tables :=
  { lists := [{ ID := 1, Name := "Test List" }], items := [], seqLists := 1,
    seqItems := MAX_ROWID }

/-- The store of TestCreateAndGetItems before its first `CreateItem`. -/
def testListStore : Repository :=
  runOps [Op.CreateList "Test List"] (NewRepository Tables.empty).1

/-- The store of TestClearCheckedItems before `ClearCheckedItems`: the list
"Test List" with Item 1 (checked), Item 2 (not checked) and Item 3 (checked). -/
def checkedItemsStore : Repository :=
  runOps
    [Op.CreateList "Test List",
     Op.CreateItem 1 "Item 1" "Category", Op.UpdateItemChecked 1 true,
     Op.CreateItem 1 "Item 2" "Category",
     Op.CreateItem 1 "Item 3" "Category", Op.UpdateItemChecked 3 true]
    (NewRepository Tables.empty).1

/-- The store of TestMoveItemToList before `MoveItemToList`. -/
def twoListsOneItemStore : Repository :=
  runOps
    [Op.CreateList "List 1", Op.CreateList "List 2",
     Op.CreateItem 1 "Test Item" "Test Category"]
    (NewRepository Tables.empty).1

/-- The list `items` with `x` replaced by `x'` wherever it occurs. -/
def replaceItem (x x' : model.Item) (items : List model.Item) : List model.Item :=
  items.map (fun y => if y = x then x' else y)

/-- The store of TestUpdateItem before the updates. -/
def oneItemStore : Repository :=
  runOps [Op.CreateList "Test List", Op.CreateItem 1 "Test Item" "Test Category"]
    (NewRepository Tables.empty).1

/-- Calls that delete the list and the item with the largest id, and clear a
checked item, before creating again. -/
def deleteLargestThenCreate : List Op :=
  [Op.CreateList "List 1", Op.CreateList "List 2", Op.DeleteList 2, Op.CreateList "List 3",
   Op.CreateItem 1 "Item 1" "Category", Op.CreateItem 1 "Item 2" "Category",
   Op.DeleteItem 2, Op.CreateItem 1 "Item 3" "Category", Op.UpdateItemChecked 3 true,
   Op.ClearCheckedItems 1, Op.CreateItem 1 "Item 4" "Category"]

/-- The store of TestMoveItemToList before `MoveItemToList`, the item having a
name of `n` bytes and an empty category. -/
def longNameItemStore (n : Nat) : Repository :=
  runOps
    [Op.CreateList "List 1", Op.CreateList "List 2", Op.CreateItem 1 (textOfSize n) ""]
    (NewRepository Tables.empty).1

/-! ## The rowid allocator -/

theorem newRowid_gt {last : Option Int} {seq id : Int}
    (h : newRowid last seq = .ok id) : seq < id := by
  unfold newRowid at h
  split at h
  · cases h
  · simp only [Except.ok.injEq] at h
    split at h <;> omega

theorem newRowid_of_le {last : Option Int} {seq : Int} (h0 : 0 ≤ seq)
    (hseq : seq < MAX_ROWID) (hlast : ∀ m, last = some m → m ≤ seq) :
    newRowid last seq = .ok (seq + 1) := by
  unfold newRowid
  have h1 : ¬ (seq = MAX_ROWID ∨ last = some MAX_ROWID) := by
    rintro (h | h)
    · omega
    · have := hlast _ h
      omega
  rw [if_neg h1]
  cases last with
  | none =>
    simp only [Except.ok.injEq]
    split <;> omega
  | some m =>
    have := hlast m rfl
    simp only [Except.ok.injEq]
    split <;> omega

theorem last_le_of_forall {α : Type} (f : α → Int) (rows : List α) (seq : Int)
    (h : ∀ x ∈ rows, f x ≤ seq) : ∀ m, rows.getLast?.map f = some m → m ≤ seq := by
  intro m hm
  rw [Option.map_eq_some'] at hm
  obtain ⟨x, hx, rfl⟩ := hm
  exact h x (List.mem_of_getLast?_eq_some hx)

theorem newRowid_full {last : Option Int} : newRowid last MAX_ROWID = .error .full := by
  simp [newRowid]

/-! ## Record sizes -/

theorem utf8ByteSize_textOfSize (n : Nat) : (textOfSize n).utf8ByteSize = n := by
  show String.utf8ByteSize.go (List.replicate n 'a') = n
  induction n with
  | zero => rfl
  | succ n ih =>
    rw [List.replicate_succ, String.utf8ByteSize.go, ih]
    rfl

theorem utf8ByteSize_le_listRecordSize (name : String) :
    name.utf8ByteSize ≤ listRecordSize name := by
  unfold listRecordSize
  omega

theorem utf8ByteSize_le_itemRecordSize (listID : Int) (name category : String) :
    name.utf8ByteSize ≤ itemRecordSize listID name category ∧
      category.utf8ByteSize ≤ itemRecordSize listID name category := by
  unfold itemRecordSize
  omega

/-- Size of the record of a `lists` row whose name has between `2^27` and
`2^34 - 7` bytes: seven bytes on top of the name. -/
theorem listRecordSize_of_large {name : String} (h1 : 2 ^ 27 ≤ name.utf8ByteSize)
    (h2 : name.utf8ByteSize < 2 ^ 34 - 7) : listRecordSize name = name.utf8ByteSize + 7 := by
  have hv : varintLen (2 * name.utf8ByteSize + 13) = 5 := by
    unfold varintLen
    norm_num at h1 h2 ⊢
    repeat' split
    all_goals omega
  unfold listRecordSize
  omega

theorem varintLen_13 : varintLen (2 * "".utf8ByteSize + 13) = 1 := by decide

/-- Size of the record of an `items` row with empty category whose name has
between `2^27` and `2^34 - 7` bytes. -/
theorem itemRecordSize_of_large {name : String} (listID : Int)
    (h1 : 2 ^ 27 ≤ name.utf8ByteSize) (h2 : name.utf8ByteSize < 2 ^ 34 - 7) :
    itemRecordSize listID name "" = name.utf8ByteSize + 10 + intDataLen listID := by
  have hv : varintLen (2 * name.utf8ByteSize + 13) = 5 := by
    unfold varintLen
    norm_num at h1 h2 ⊢
    repeat' split
    all_goals omega
  have h0 : "".utf8ByteSize = 0 := rfl
  unfold itemRecordSize
  rw [hv, varintLen_13, h0]
  omega

/-! ## What each method returns -/

theorem dataSourceParams_no_pragma :
    dataSourceParams.foldl
      (fun fk p => if p.1 == "_pragma" then (pragmaForeignKeys p.2).getD fk else fk) false =
      false := by
  decide

theorem NewRepository_eq (file : Tables) :
    NewRepository file = ({ DB := { foreignKeys := false, tables := file } }, none) := by
  simp only [NewRepository, Repository.init, sql.Open, dataSourceParams_no_pragma]

theorem Repository.CreateList_tooBig_bound {r : Repository} {name : String}
    (h : SQLITE_MAX_LENGTH < name.utf8ByteSize) :
    r.CreateList name = ((0, some .tooBig), r) := by
  simp only [Repository.CreateList, execInsertList, h, if_true]

theorem Repository.CreateList_error {r : Repository} {name : String} {e : SqlError}
    (hb : ¬ SQLITE_MAX_LENGTH < name.utf8ByteSize)
    (h : newRowid (r.DB.tables.lists.getLast?.map (·.ID)) r.DB.tables.seqLists = .error e) :
    r.CreateList name = ((0, some e), r) := by
  simp only [Repository.CreateList, execInsertList, hb, if_false, h]

theorem Repository.CreateList_tooBig {r : Repository} {name : String} {id : Int}
    (hb : ¬ SQLITE_MAX_LENGTH < name.utf8ByteSize)
    (h : newRowid (r.DB.tables.lists.getLast?.map (·.ID)) r.DB.tables.seqLists = .ok id)
    (hrec : SQLITE_MAX_LENGTH < listRecordSize name) :
    r.CreateList name = ((0, some .tooBig), r) := by
  simp only [Repository.CreateList, execInsertList, hb, if_false, h, hrec, if_true]

theorem Repository.CreateList_ok {r : Repository} {name : String} {id : Int}
    (h : newRowid (r.DB.tables.lists.getLast?.map (·.ID)) r.DB.tables.seqLists = .ok id)
    (hfit : listRecordSize name ≤ SQLITE_MAX_LENGTH) :
    r.CreateList name = ((id, none), { DB := { r.DB with tables := { r.DB.tables with
      lists := r.DB.tables.lists ++ [{ ID := id, Name := name }]
      seqLists := id } } }) := by
  have hb : ¬ SQLITE_MAX_LENGTH < name.utf8ByteSize :=
    not_lt.2 (le_trans (utf8ByteSize_le_listRecordSize name) hfit)
  simp only [Repository.CreateList, execInsertList, hb, if_false, h, not_lt.2 hfit]

/-- The two ways `CreateList` ends: an error and the store as it was, or the
new row appended under a fresh rowid. -/
theorem Repository.CreateList_cases (r : Repository) (name : String) :
    (∃ e, r.CreateList name = ((0, some e), r)) ∨
    (∃ id, newRowid (r.DB.tables.lists.getLast?.map (·.ID)) r.DB.tables.seqLists = .ok id ∧
      listRecordSize name ≤ SQLITE_MAX_LENGTH ∧
      r.CreateList name = ((id, none), { DB := { r.DB with tables := { r.DB.tables with
        lists := r.DB.tables.lists ++ [{ ID := id, Name := name }]
        seqLists := id } } })) := by
  by_cases hb : SQLITE_MAX_LENGTH < name.utf8ByteSize
  · exact Or.inl ⟨_, Repository.CreateList_tooBig_bound hb⟩
  · cases h : newRowid (r.DB.tables.lists.getLast?.map (·.ID)) r.DB.tables.seqLists with
    | error e => exact Or.inl ⟨_, Repository.CreateList_error hb h⟩
    | ok id =>
      by_cases hrec : SQLITE_MAX_LENGTH < listRecordSize name
      · exact Or.inl ⟨_, Repository.CreateList_tooBig hb h hrec⟩
      · exact Or.inr ⟨id, rfl, not_lt.1 hrec, Repository.CreateList_ok h (not_lt.1 hrec)⟩

theorem Repository.CreateItem_tooBig_bound {r : Repository} {listID : Int}
    {name category : String}
    (h : SQLITE_MAX_LENGTH < name.utf8ByteSize ∨ SQLITE_MAX_LENGTH < category.utf8ByteSize) :
    r.CreateItem listID name category = ((0, some .tooBig), r) := by
  simp only [Repository.CreateItem, execInsertItem, h, if_true]

theorem Repository.CreateItem_error {r : Repository} {listID : Int} {name category : String}
    {e : SqlError}
    (hb : ¬ (SQLITE_MAX_LENGTH < name.utf8ByteSize ∨ SQLITE_MAX_LENGTH < category.utf8ByteSize))
    (h : newRowid (r.DB.tables.items.getLast?.map (·.ID)) r.DB.tables.seqItems = .error e) :
    r.CreateItem listID name category = ((0, some e), r) := by
  simp only [Repository.CreateItem, execInsertItem, hb, if_false, h]

theorem Repository.CreateItem_tooBig {r : Repository} {listID : Int} {name category : String}
    {id : Int}
    (hb : ¬ (SQLITE_MAX_LENGTH < name.utf8ByteSize ∨ SQLITE_MAX_LENGTH < category.utf8ByteSize))
    (h : newRowid (r.DB.tables.items.getLast?.map (·.ID)) r.DB.tables.seqItems = .ok id)
    (hrec : SQLITE_MAX_LENGTH < itemRecordSize listID name category) :
    r.CreateItem listID name category = ((0, some .tooBig), r) := by
  simp only [Repository.CreateItem, execInsertItem, hb, if_false, h, hrec, if_true]

theorem not_bound_of_fit {listID : Int} {name category : String}
    (hfit : itemRecordSize listID name category ≤ SQLITE_MAX_LENGTH) :
    ¬ (SQLITE_MAX_LENGTH < name.utf8ByteSize ∨ SQLITE_MAX_LENGTH < category.utf8ByteSize) := by
  have := utf8ByteSize_le_itemRecordSize listID name category
  omega

theorem Repository.CreateItem_rejected {r : Repository} {listID : Int} {name category : String}
    {id : Int}
    (h : newRowid (r.DB.tables.items.getLast?.map (·.ID)) r.DB.tables.seqItems = .ok id)
    (hfit : itemRecordSize listID name category ≤ SQLITE_MAX_LENGTH)
    (hfk : (r.DB.foreignKeys && !(r.DB.tables.lists.any (fun l => l.ID == listID))) = true) :
    r.CreateItem listID name category = ((0, some .foreignKey), r) := by
  simp only [Repository.CreateItem, execInsertItem, not_bound_of_fit hfit, if_false, h,
    not_lt.2 hfit, hfk, if_true]

theorem Repository.CreateItem_ok {r : Repository} {listID : Int} {name category : String}
    {id : Int}
    (h : newRowid (r.DB.tables.items.getLast?.map (·.ID)) r.DB.tables.seqItems = .ok id)
    (hfit : itemRecordSize listID name category ≤ SQLITE_MAX_LENGTH)
    (hfk : (r.DB.foreignKeys && !(r.DB.tables.lists.any (fun l => l.ID == listID))) = false) :
    r.CreateItem listID name category = ((id, none), { DB := { r.DB with tables :=
      { r.DB.tables with
        items := r.DB.tables.items ++
          [{ ID := id, ListID := listID, Name := name, Category := category, Checked := false }]
        seqItems := id } } }) := by
  simp only [Repository.CreateItem, execInsertItem, not_bound_of_fit hfit, if_false, h,
    not_lt.2 hfit, hfk, Bool.false_eq_true]

/-- The two ways `CreateItem` ends: an error and the store as it was, or the
new row appended under a fresh rowid. -/
theorem Repository.CreateItem_cases (r : Repository) (listID : Int) (name category : String) :
    (∃ e, r.CreateItem listID name category = ((0, some e), r)) ∨
    (∃ id, newRowid (r.DB.tables.items.getLast?.map (·.ID)) r.DB.tables.seqItems = .ok id ∧
      itemRecordSize listID name category ≤ SQLITE_MAX_LENGTH ∧
      r.CreateItem listID name category = ((id, none), { DB := { r.DB with tables :=
        { r.DB.tables with
          items := r.DB.tables.items ++
            [{ ID := id, ListID := listID, Name := name, Category := category,
               Checked := false }]
          seqItems := id } } })) := by
  by_cases hb : SQLITE_MAX_LENGTH < name.utf8ByteSize ∨ SQLITE_MAX_LENGTH < category.utf8ByteSize
  · exact Or.inl ⟨_, Repository.CreateItem_tooBig_bound hb⟩
  · cases h : newRowid (r.DB.tables.items.getLast?.map (·.ID)) r.DB.tables.seqItems with
    | error e => exact Or.inl ⟨_, Repository.CreateItem_error hb h⟩
    | ok id =>
      by_cases hrec : SQLITE_MAX_LENGTH < itemRecordSize listID name category
      · exact Or.inl ⟨_, Repository.CreateItem_tooBig hb h hrec⟩
      · cases hfk : (r.DB.foreignKeys && !(r.DB.tables.lists.any (fun l => l.ID == listID))) with
        | true => exact Or.inl ⟨_, Repository.CreateItem_rejected h (not_lt.1 hrec) hfk⟩
        | false =>
          exact Or.inr ⟨id, rfl, not_lt.1 hrec, Repository.CreateItem_ok h (not_lt.1 hrec) hfk⟩

theorem Repository.DeleteList_eq (r : Repository) (id : Int) :
    r.DeleteList id = (none, { DB := { r.DB with tables := { r.DB.tables with
      lists := r.DB.tables.lists.filter (fun l => !(l.ID == id))
      items := if (r.DB.foreignKeys && r.DB.tables.lists.any (fun l => l.ID == id)) = true
        then r.DB.tables.items.filter (fun i => !(i.ListID == id))
        else r.DB.tables.items } } }) := by
  simp only [Repository.DeleteList, execDeleteList]
  split_ifs <;> rfl

theorem Repository.UpdateItemChecked_ok {r : Repository} {id : Int} {checked : Bool}
    (h : updateTooBig r.DB.tables.items id (fun i => { i with Checked := checked }) = false) :
    r.UpdateItemChecked id checked = (none, { DB := { r.DB with tables := { r.DB.tables with
      items := r.DB.tables.items.map
        (fun i => if i.ID == id then { i with Checked := checked } else i) } } }) := by
  simp only [Repository.UpdateItemChecked, execUpdateChecked, h, Bool.false_eq_true, if_false]

theorem Repository.UpdateItemChecked_cases (r : Repository) (id : Int) (checked : Bool) :
    (∃ e, r.UpdateItemChecked id checked = (some e, r)) ∨
    (updateTooBig r.DB.tables.items id (fun i => { i with Checked := checked }) = false ∧
      r.UpdateItemChecked id checked = (none, { DB := { r.DB with tables := { r.DB.tables with
        items := r.DB.tables.items.map
          (fun i => if i.ID == id then { i with Checked := checked } else i) } } })) := by
  cases h : updateTooBig r.DB.tables.items id (fun i => { i with Checked := checked }) with
  | true =>
    exact Or.inl ⟨.tooBig, by
      simp only [Repository.UpdateItemChecked, execUpdateChecked, h, if_true]⟩
  | false => exact Or.inr ⟨rfl, Repository.UpdateItemChecked_ok h⟩

theorem Repository.UpdateItemCategory_tooBig_bound {r : Repository} {id : Int}
    {category : String} (h : SQLITE_MAX_LENGTH < category.utf8ByteSize) :
    r.UpdateItemCategory id category = (some .tooBig, r) := by
  simp only [Repository.UpdateItemCategory, execUpdateCategory, h, if_true]

theorem Repository.UpdateItemCategory_tooBig {r : Repository} {id : Int} {category : String}
    (h : updateTooBig r.DB.tables.items id (fun i => { i with Category := category }) = true) :
    r.UpdateItemCategory id category = (some .tooBig, r) := by
  simp only [Repository.UpdateItemCategory, execUpdateCategory, h, if_true, ite_self]

theorem Repository.UpdateItemCategory_ok {r : Repository} {id : Int} {category : String}
    (hb : category.utf8ByteSize ≤ SQLITE_MAX_LENGTH)
    (h : updateTooBig r.DB.tables.items id (fun i => { i with Category := category }) = false) :
    r.UpdateItemCategory id category = (none, { DB := { r.DB with tables := { r.DB.tables with
      items := r.DB.tables.items.map
        (fun i => if i.ID == id then { i with Category := category } else i) } } }) := by
  simp only [Repository.UpdateItemCategory, execUpdateCategory, not_lt.2 hb, h,
    Bool.false_eq_true, if_false]

theorem Repository.UpdateItemCategory_cases (r : Repository) (id : Int) (category : String) :
    (∃ e, r.UpdateItemCategory id category = (some e, r)) ∨
    (updateTooBig r.DB.tables.items id (fun i => { i with Category := category }) = false ∧
      r.UpdateItemCategory id category = (none, { DB := { r.DB with tables :=
        { r.DB.tables with
          items := r.DB.tables.items.map
            (fun i => if i.ID == id then { i with Category := category } else i) } } })) := by
  by_cases hb : SQLITE_MAX_LENGTH < category.utf8ByteSize
  · exact Or.inl ⟨_, Repository.UpdateItemCategory_tooBig_bound hb⟩
  · cases h : updateTooBig r.DB.tables.items id (fun i => { i with Category := category }) with
    | true => exact Or.inl ⟨_, Repository.UpdateItemCategory_tooBig h⟩
    | false => exact Or.inr ⟨rfl, Repository.UpdateItemCategory_ok (not_lt.1 hb) h⟩

theorem Repository.UpdateItemName_tooBig_bound {r : Repository} {id : Int}
    {name : String} (h : SQLITE_MAX_LENGTH < name.utf8ByteSize) :
    r.UpdateItemName id name = (some .tooBig, r) := by
  simp only [Repository.UpdateItemName, execUpdateName, h, if_true]

theorem Repository.UpdateItemName_tooBig {r : Repository} {id : Int} {name : String}
    (h : updateTooBig r.DB.tables.items id (fun i => { i with Name := name }) = true) :
    r.UpdateItemName id name = (some .tooBig, r) := by
  simp only [Repository.UpdateItemName, execUpdateName, h, if_true, ite_self]

theorem Repository.UpdateItemName_ok {r : Repository} {id : Int} {name : String}
    (hb : name.utf8ByteSize ≤ SQLITE_MAX_LENGTH)
    (h : updateTooBig r.DB.tables.items id (fun i => { i with Name := name }) = false) :
    r.UpdateItemName id name = (none, { DB := { r.DB with tables := { r.DB.tables with
      items := r.DB.tables.items.map
        (fun i => if i.ID == id then { i with Name := name } else i) } } }) := by
  simp only [Repository.UpdateItemName, execUpdateName, not_lt.2 hb, h,
    Bool.false_eq_true, if_false]

theorem Repository.UpdateItemName_cases (r : Repository) (id : Int) (name : String) :
    (∃ e, r.UpdateItemName id name = (some e, r)) ∨
    (updateTooBig r.DB.tables.items id (fun i => { i with Name := name }) = false ∧
      r.UpdateItemName id name = (none, { DB := { r.DB with tables :=
        { r.DB.tables with
          items := r.DB.tables.items.map
            (fun i => if i.ID == id then { i with Name := name } else i) } } })) := by
  by_cases hb : SQLITE_MAX_LENGTH < name.utf8ByteSize
  · exact Or.inl ⟨_, Repository.UpdateItemName_tooBig_bound hb⟩
  · cases h : updateTooBig r.DB.tables.items id (fun i => { i with Name := name }) with
    | true => exact Or.inl ⟨_, Repository.UpdateItemName_tooBig h⟩
    | false => exact Or.inr ⟨rfl, Repository.UpdateItemName_ok (not_lt.1 hb) h⟩

theorem Repository.MoveItemToList_tooBig {r : Repository} {itemID newListID : Int}
    (h : updateTooBig r.DB.tables.items itemID (fun i => { i with ListID := newListID }) = true) :
    r.MoveItemToList itemID newListID = (some .tooBig, r) := by
  simp only [Repository.MoveItemToList, execUpdateListID, h, if_true]

theorem Repository.MoveItemToList_rejected {r : Repository} {itemID newListID : Int}
    (h : updateTooBig r.DB.tables.items itemID (fun i => { i with ListID := newListID }) = false)
    (hfk : (r.DB.foreignKeys && r.DB.tables.items.any (fun i => i.ID == itemID) &&
      !(r.DB.tables.lists.any (fun l => l.ID == newListID))) = true) :
    r.MoveItemToList itemID newListID = (some .foreignKey, r) := by
  simp only [Repository.MoveItemToList, execUpdateListID, h, Bool.false_eq_true, if_false, hfk,
    if_true]

theorem Repository.MoveItemToList_ok {r : Repository} {itemID newListID : Int}
    (h : updateTooBig r.DB.tables.items itemID (fun i => { i with ListID := newListID }) = false)
    (hfk : (r.DB.foreignKeys && r.DB.tables.items.any (fun i => i.ID == itemID) &&
      !(r.DB.tables.lists.any (fun l => l.ID == newListID))) = false) :
    r.MoveItemToList itemID newListID = (none, { DB := { r.DB with tables :=
      { r.DB.tables with
        items := r.DB.tables.items.map
          (fun i => if i.ID == itemID then { i with ListID := newListID } else i) } } }) := by
  simp only [Repository.MoveItemToList, execUpdateListID, h, hfk, Bool.false_eq_true, if_false]

theorem Repository.MoveItemToList_cases (r : Repository) (itemID newListID : Int) :
    (∃ e, r.MoveItemToList itemID newListID = (some e, r)) ∨
    (updateTooBig r.DB.tables.items itemID (fun i => { i with ListID := newListID }) = false ∧
      r.MoveItemToList itemID newListID = (none, { DB := { r.DB with tables :=
        { r.DB.tables with
          items := r.DB.tables.items.map
            (fun i => if i.ID == itemID then { i with ListID := newListID } else i) } } })) := by
  cases h : updateTooBig r.DB.tables.items itemID (fun i => { i with ListID := newListID }) with
  | true => exact Or.inl ⟨_, Repository.MoveItemToList_tooBig h⟩
  | false =>
    cases hfk : (r.DB.foreignKeys && r.DB.tables.items.any (fun i => i.ID == itemID) &&
      !(r.DB.tables.lists.any (fun l => l.ID == newListID))) with
    | true => exact Or.inl ⟨_, Repository.MoveItemToList_rejected h hfk⟩
    | false => exact Or.inr ⟨rfl, Repository.MoveItemToList_ok h hfk⟩

theorem updateTooBig_eq_false {items : List model.Item} {id : Int}
    {f : model.Item → model.Item} :
    updateTooBig items id f = false ↔
      ∀ i ∈ items, i.ID = id → (f i).recordSize ≤ SQLITE_MAX_LENGTH := by
  unfold updateTooBig
  rw [List.any_eq_false]
  constructor
  · intro h i hi hid
    have := h i hi
    simpa [hid] using this
  · intro h i hi
    by_cases hid : i.ID = id
    · have := h i hi hid
      simp [hid, this]
    · simp [hid]

/-! ## Foreign keys on the connection of `NewRepository` -/

theorem Op.apply_foreignKeys (op : Op) (r : Repository) :
    (op.apply r).DB.foreignKeys = r.DB.foreignKeys := by
  cases op with
  | CreateList name =>
    simp only [Op.apply]
    rcases Repository.CreateList_cases r name with ⟨e, h⟩ | ⟨id, -, -, h⟩ <;> rw [h]
  | DeleteList id => simp only [Op.apply, Repository.DeleteList_eq]
  | CreateItem listID name category =>
    simp only [Op.apply]
    rcases Repository.CreateItem_cases r listID name category with ⟨e, h⟩ | ⟨id, -, -, h⟩ <;>
      rw [h]
  | UpdateItemChecked id checked =>
    simp only [Op.apply]
    rcases Repository.UpdateItemChecked_cases r id checked with ⟨e, h⟩ | ⟨-, h⟩ <;> rw [h]
  | UpdateItemCategory id category =>
    simp only [Op.apply]
    rcases Repository.UpdateItemCategory_cases r id category with ⟨e, h⟩ | ⟨-, h⟩ <;> rw [h]
  | UpdateItemName id name =>
    simp only [Op.apply]
    rcases Repository.UpdateItemName_cases r id name with ⟨e, h⟩ | ⟨-, h⟩ <;> rw [h]
  | MoveItemToList itemID newListID =>
    simp only [Op.apply]
    rcases Repository.MoveItemToList_cases r itemID newListID with ⟨e, h⟩ | ⟨-, h⟩ <;> rw [h]
  | _ => rfl

theorem runOps_foreignKeys (ops : List Op) (r : Repository) :
    (runOps ops r).DB.foreignKeys = r.DB.foreignKeys := by
  induction ops generalizing r with
  | nil => rfl
  | cons op ops ih => rw [runOps, ih, Op.apply_foreignKeys]

/-- No sequence of calls turns foreign-key enforcement on: every store state the
repository reaches is served by a connection that does not enforce them. -/
theorem Reachable.foreignKeys_off {r : Repository} (h : Reachable r) :
    r.DB.foreignKeys = false := by
  obtain ⟨ops, rfl⟩ := h
  rw [runOps_foreignKeys, NewRepository_eq]

/-- Without enforcement `DeleteList` never touches the table `items`. -/
theorem DeleteList_items_of_foreignKeys_off (r : Repository) (id : Int)
    (hfk : r.DB.foreignKeys = false) :
    (r.DeleteList id).1 = none ∧ ∀ l, (r.DeleteList id).2.GetItems l = r.GetItems l := by
  simp [Repository.DeleteList_eq, hfk, Repository.GetItems, queryItems]

/-- With enforcement the cascade of the schema does what the schema says: the
deleted list is gone together with its items. -/
theorem DeleteList_cascades_of_foreignKeys_on (r : Repository) (id : Int)
    (hfk : r.DB.foreignKeys = true) (hex : ∃ l ∈ r.GetLists.1, l.ID = id) :
    (r.DeleteList id).1 = none ∧ (r.DeleteList id).2.GetItems id = ([], none) ∧
      ∀ l ∈ (r.DeleteList id).2.GetLists.1, l.ID ≠ id := by
  obtain ⟨l, hl, hid⟩ := hex
  simp only [Repository.GetLists, queryLists] at hl
  have hany : r.DB.tables.lists.any (fun l => l.ID == id) = true := by
    rw [List.any_eq_true]
    exact ⟨l, hl, by simp [hid]⟩
  simp [Repository.DeleteList_eq, hfk, hany, Repository.GetItems, queryItems,
    Repository.GetLists, queryLists]

/-! ## The invariants are kept -/

theorem newRowid_of_RowsOK {α : Type} {rowid : α → Int} {rows : List α} {seq : Int}
    (h : RowsOK rowid rows seq) (h0 : 0 ≤ seq) (hseq : seq < MAX_ROWID) :
    newRowid (rows.getLast?.map rowid) seq = .ok (seq + 1) :=
  newRowid_of_le h0 hseq (last_le_of_forall rowid rows seq (fun x hx => (h.2 x hx).2))

theorem newRowid_eq_of_RowsOK {α : Type} {rowid : α → Int} {rows : List α} {seq id : Int}
    (h : RowsOK rowid rows seq) (h0 : 0 ≤ seq) (hseq : seq ≤ MAX_ROWID)
    (hid : newRowid (rows.getLast?.map rowid) seq = .ok id) : id = seq + 1 := by
  rcases lt_or_eq_of_le hseq with hlt | heq
  · rw [newRowid_of_RowsOK h h0 hlt] at hid
    cases hid
    rfl
  · rw [heq, newRowid_full] at hid
    cases hid

theorem RowsOK.filter {α : Type} {rowid : α → Int} {rows : List α} {seq : Int}
    (h : RowsOK rowid rows seq) (p : α → Bool) : RowsOK rowid (rows.filter p) seq :=
  ⟨h.1.filter p, fun x hx => h.2 x (List.mem_of_mem_filter hx)⟩

theorem RowsOK.map {α : Type} {rowid : α → Int} {rows : List α} {seq : Int}
    (h : RowsOK rowid rows seq) (f : α → α) (hf : ∀ x, rowid (f x) = rowid x) :
    RowsOK rowid (rows.map f) seq := by
  constructor
  · rw [List.pairwise_map]
    exact h.1.imp (fun {a b} hab => by rw [hf a, hf b]; exact hab)
  · intro x hx
    obtain ⟨y, hy, rfl⟩ := List.mem_map.1 hx
    rw [hf y]
    exact h.2 y hy

theorem RowsOK.append {α : Type} {rowid : α → Int} {rows : List α} {seq : Int}
    (h : RowsOK rowid rows seq) (h0 : 0 ≤ seq) (x : α) (hx : rowid x = seq + 1) :
    RowsOK rowid (rows ++ [x]) (seq + 1) := by
  constructor
  · rw [List.pairwise_append]
    refine ⟨h.1, List.pairwise_singleton _ _, fun a ha b hb => ?_⟩
    rw [List.mem_singleton] at hb
    subst hb
    have := (h.2 a ha).2
    omega
  · intro y hy
    rcases List.mem_append.1 hy with hy | hy
    · have := h.2 y hy
      omega
    · rw [List.mem_singleton] at hy
      subst hy
      omega

theorem RowsOK.nodup {α : Type} {rowid : α → Int} {rows : List α} {seq : Int}
    (h : RowsOK rowid rows seq) : rows.Nodup :=
  h.1.imp (fun {a b} hab heq => by rw [heq] at hab; exact lt_irrefl _ hab)

theorem RowsOK.eq_of_rowid_eq {α : Type} {rowid : α → Int} {rows : List α} {seq : Int}
    (h : RowsOK rowid rows seq) {x y : α} (hx : x ∈ rows) (hy : y ∈ rows)
    (hxy : rowid x = rowid y) : x = y := by
  refine List.Pairwise.forall_of_forall (R := fun a b => rowid a = rowid b → a = b)
    (fun a b hab hba => (hab hba.symm).symm) (fun a _ _ => rfl)
    (h.1.imp (fun {a b} hab heq => ?_)) hx hy hxy
  rw [heq] at hab
  exact absurd hab (lt_irrefl _)

theorem Repository.CreateList_of_room {r : Repository} (name : String) (hwf : r.WF)
    (hroom : r.DB.tables.seqLists < MAX_ROWID)
    (hfit : listRecordSize name ≤ SQLITE_MAX_LENGTH) :
    r.CreateList name = ((r.DB.tables.seqLists + 1, none), { DB := { r.DB with tables :=
      { r.DB.tables with
        lists := r.DB.tables.lists ++ [{ ID := r.DB.tables.seqLists + 1, Name := name }]
        seqLists := r.DB.tables.seqLists + 1 } } }) :=
  Repository.CreateList_ok (newRowid_of_RowsOK hwf.2.2.1 hwf.1.1 hroom) hfit

theorem Repository.CreateItem_of_room {r : Repository} (listID : Int) (name category : String)
    (hwf : r.WF) (hroom : r.DB.tables.seqItems < MAX_ROWID)
    (hfit : itemRecordSize listID name category ≤ SQLITE_MAX_LENGTH)
    (hfk : (r.DB.foreignKeys && !(r.DB.tables.lists.any (fun l => l.ID == listID))) = false) :
    r.CreateItem listID name category = ((r.DB.tables.seqItems + 1, none),
      { DB := { r.DB with tables := { r.DB.tables with
          items := r.DB.tables.items ++
            [{ ID := r.DB.tables.seqItems + 1, ListID := listID, Name := name,
               Category := category, Checked := false }]
          seqItems := r.DB.tables.seqItems + 1 } } }) :=
  Repository.CreateItem_ok (newRowid_of_RowsOK hwf.2.2.2 hwf.2.1.1 hroom) hfit hfk

theorem Repository.CreateList_WF {r : Repository} (name : String) (hwf : r.WF) :
    (r.CreateList name).2.WF := by
  rcases Repository.CreateList_cases r name with ⟨e, h⟩ | ⟨id, hid, -, h⟩
  · rw [h]
    exact hwf
  · rw [h]
    obtain ⟨⟨h0, hle⟩, hI, hL, hIt⟩ := hwf
    have hid' := newRowid_eq_of_RowsOK hL h0 hle hid
    have hlt := newRowid_gt hid
    subst hid'
    have hroom : r.DB.tables.seqLists < MAX_ROWID := by
      rcases lt_or_eq_of_le hle with hlt' | heq
      · exact hlt'
      · rw [heq, newRowid_full] at hid
        cases hid
    refine ⟨⟨?_, ?_⟩, hI, hL.append h0 _ rfl, hIt⟩
    · show (0 : Int) ≤ r.DB.tables.seqLists + 1
      omega
    · show r.DB.tables.seqLists + 1 ≤ MAX_ROWID
      omega

theorem Repository.CreateItem_WF {r : Repository} (listID : Int) (name category : String)
    (hwf : r.WF) : (r.CreateItem listID name category).2.WF := by
  rcases Repository.CreateItem_cases r listID name category with ⟨e, h⟩ | ⟨id, hid, -, h⟩
  · rw [h]
    exact hwf
  · rw [h]
    obtain ⟨hS, ⟨h0, hle⟩, hL, hIt⟩ := hwf
    have hid' := newRowid_eq_of_RowsOK hIt h0 hle hid
    subst hid'
    have hroom : r.DB.tables.seqItems < MAX_ROWID := by
      rcases lt_or_eq_of_le hle with hlt' | heq
      · exact hlt'
      · rw [heq, newRowid_full] at hid
        cases hid
    refine ⟨hS, ⟨?_, ?_⟩, hL, hIt.append h0 _ rfl⟩
    · show (0 : Int) ≤ r.DB.tables.seqItems + 1
      omega
    · show r.DB.tables.seqItems + 1 ≤ MAX_ROWID
      omega

theorem Repository.DeleteList_WF {r : Repository} (id : Int) (hwf : r.WF) :
    (r.DeleteList id).2.WF := by
  rw [Repository.DeleteList_eq]
  obtain ⟨hS, hI, hL, hIt⟩ := hwf
  refine ⟨hS, hI, hL.filter _, ?_⟩
  show RowsOK model.Item.ID (if _ then _ else _) _
  split_ifs
  · exact hIt.filter _
  · exact hIt

theorem WF_map_items {r : Repository} (hwf : r.WF) (f : model.Item → model.Item)
    (hf : ∀ x, (f x).ID = x.ID) :
    Repository.WF { DB := { r.DB with tables := { r.DB.tables with
      items := r.DB.tables.items.map f } } } := by
  obtain ⟨hS, hI, hL, hIt⟩ := hwf
  exact ⟨hS, hI, hL, hIt.map f hf⟩

/-- Every method keeps the invariant of the store. -/
theorem Op.apply_WF (op : Op) {r : Repository} (hwf : r.WF) : (op.apply r).WF := by
  cases op with
  | CreateList name => exact Repository.CreateList_WF name hwf
  | DeleteList id => exact Repository.DeleteList_WF id hwf
  | GetLists => exact hwf
  | CreateItem listID name category => exact Repository.CreateItem_WF listID name category hwf
  | DeleteItem id =>
    obtain ⟨hS, hI, hL, hIt⟩ := hwf
    exact ⟨hS, hI, hL, hIt.filter _⟩
  | GetItems listID => exact hwf
  | UpdateItemChecked id checked =>
    simp only [Op.apply]
    rcases Repository.UpdateItemChecked_cases r id checked with ⟨e, h⟩ | ⟨-, h⟩ <;> rw [h]
    · exact hwf
    · exact WF_map_items hwf _ (fun x => by split <;> rfl)
  | UpdateItemCategory id category =>
    simp only [Op.apply]
    rcases Repository.UpdateItemCategory_cases r id category with ⟨e, h⟩ | ⟨-, h⟩ <;> rw [h]
    · exact hwf
    · exact WF_map_items hwf _ (fun x => by split <;> rfl)
  | UpdateItemName id name =>
    simp only [Op.apply]
    rcases Repository.UpdateItemName_cases r id name with ⟨e, h⟩ | ⟨-, h⟩ <;> rw [h]
    · exact hwf
    · exact WF_map_items hwf _ (fun x => by split <;> rfl)
  | ClearCheckedItems listID =>
    obtain ⟨hS, hI, hL, hIt⟩ := hwf
    exact ⟨hS, hI, hL, hIt.filter _⟩
  | MoveItemToList itemID newListID =>
    simp only [Op.apply]
    rcases Repository.MoveItemToList_cases r itemID newListID with ⟨e, h⟩ | ⟨-, h⟩ <;> rw [h]
    · exact hwf
    · exact WF_map_items hwf _ (fun x => by split <;> rfl)

theorem runOps_WF (ops : List Op) {r : Repository} (hwf : r.WF) : (runOps ops r).WF := by
  induction ops generalizing r with
  | nil => exact hwf
  | cons op ops ih => exact ih (op.apply_WF hwf)

/-- Every store state the repository reaches satisfies the invariant. -/
theorem Reachable.WF {r : Repository} (h : Reachable r) : r.WF := by
  obtain ⟨ops, rfl⟩ := h
  exact runOps_WF ops (by rw [NewRepository_eq]; decide)

theorem Fits_map_items {r : Repository} (hfits : r.Fits) {id : Int}
    {f : model.Item → model.Item} (h : updateTooBig r.DB.tables.items id f = false) :
    Repository.Fits { DB := { r.DB with tables := { r.DB.tables with
      items := r.DB.tables.items.map (fun i => if i.ID == id then f i else i) } } } := by
  intro y hy
  obtain ⟨i, hi, rfl⟩ := List.mem_map.1 hy
  by_cases hid : i.ID = id
  · rw [if_pos (by simp [hid])]
    exact updateTooBig_eq_false.1 h i hi hid
  · rw [if_neg (by simp [hid])]
    exact hfits i hi

/-- Every method keeps the records of `items` within the limit. -/
theorem Op.apply_Fits (op : Op) {r : Repository} (hfits : r.Fits) : (op.apply r).Fits := by
  cases op with
  | CreateList name =>
    simp only [Op.apply]
    rcases Repository.CreateList_cases r name with ⟨e, h⟩ | ⟨id, -, -, h⟩ <;> rw [h] <;>
      exact hfits
  | DeleteList id =>
    simp only [Op.apply, Repository.DeleteList_eq]
    intro i hi
    have hi' : i ∈ (if _ then _ else _) := hi
    split_ifs at hi'
    · exact hfits i (List.mem_of_mem_filter hi')
    · exact hfits i hi'
  | GetLists => exact hfits
  | CreateItem listID name category =>
    simp only [Op.apply]
    rcases Repository.CreateItem_cases r listID name category with ⟨e, h⟩ | ⟨id, -, hfit, h⟩ <;>
      rw [h]
    · exact hfits
    · intro i hi
      rcases List.mem_append.1 hi with hi | hi
      · exact hfits i hi
      · rw [List.mem_singleton] at hi
        subst hi
        exact hfit
  | DeleteItem id => exact fun i hi => hfits i (List.mem_of_mem_filter hi)
  | GetItems listID => exact hfits
  | UpdateItemChecked id checked =>
    simp only [Op.apply]
    rcases Repository.UpdateItemChecked_cases r id checked with ⟨e, h⟩ | ⟨ht, h⟩ <;> rw [h]
    · exact hfits
    · exact Fits_map_items hfits ht
  | UpdateItemCategory id category =>
    simp only [Op.apply]
    rcases Repository.UpdateItemCategory_cases r id category with ⟨e, h⟩ | ⟨ht, h⟩ <;> rw [h]
    · exact hfits
    · exact Fits_map_items hfits ht
  | UpdateItemName id name =>
    simp only [Op.apply]
    rcases Repository.UpdateItemName_cases r id name with ⟨e, h⟩ | ⟨ht, h⟩ <;> rw [h]
    · exact hfits
    · exact Fits_map_items hfits ht
  | ClearCheckedItems listID => exact fun i hi => hfits i (List.mem_of_mem_filter hi)
  | MoveItemToList itemID newListID =>
    simp only [Op.apply]
    rcases Repository.MoveItemToList_cases r itemID newListID with ⟨e, h⟩ | ⟨ht, h⟩ <;> rw [h]
    · exact hfits
    · exact Fits_map_items hfits ht

theorem runOps_Fits (ops : List Op) {r : Repository} (hfits : r.Fits) : (runOps ops r).Fits := by
  induction ops generalizing r with
  | nil => exact hfits
  | cons op ops ih => exact ih (op.apply_Fits hfits)

/-- In every store state the repository reaches the records of `items` are
within the limit. -/
theorem Reachable.Fits {r : Repository} (h : Reachable r) : r.Fits := by
  obtain ⟨ops, rfl⟩ := h
  refine runOps_Fits ops ?_
  rw [NewRepository_eq]
  intro i hi
  cases hi

theorem runOps_append (ops₁ ops₂ : List Op) (r : Repository) :
    runOps (ops₁ ++ ops₂) r = runOps ops₂ (runOps ops₁ r) := by
  induction ops₁ generalizing r with
  | nil => rfl
  | cons op ops ih => exact ih _

theorem Reachable.apply {r : Repository} (h : Reachable r) (op : Op) : Reachable (op.apply r) := by
  obtain ⟨ops, rfl⟩ := h
  exact ⟨ops ++ [op], by rw [runOps_append]; rfl⟩

/-! ## Counters and the ids given out -/

theorem Op.createdList_spec {op : Op} {r : Repository} {id : Int}
    (h : op.createdList r = some id) :
    r.DB.tables.seqLists < id ∧ (op.apply r).DB.tables.seqLists = id := by
  cases op with
  | CreateList name =>
    simp only [Op.createdList, Op.apply] at h ⊢
    rcases Repository.CreateList_cases r name with ⟨e, hc⟩ | ⟨id', hrow, -, hc⟩
    · rw [hc] at h
      cases h
    · rw [hc] at h ⊢
      cases h
      exact ⟨newRowid_gt hrow, rfl⟩
  | _ => cases h

theorem Op.createdItem_spec {op : Op} {r : Repository} {id : Int}
    (h : op.createdItem r = some id) :
    r.DB.tables.seqItems < id ∧ (op.apply r).DB.tables.seqItems = id := by
  cases op with
  | CreateItem listID name category =>
    simp only [Op.createdItem, Op.apply] at h ⊢
    rcases Repository.CreateItem_cases r listID name category with ⟨e, hc⟩ | ⟨id', hrow, -, hc⟩
    · rw [hc] at h
      cases h
    · rw [hc] at h ⊢
      cases h
      exact ⟨newRowid_gt hrow, rfl⟩
  | _ => cases h

/-- No call lowers a counter of `sqlite_sequence`. -/
theorem Op.apply_seq_le (op : Op) (r : Repository) :
    r.DB.tables.seqLists ≤ (op.apply r).DB.tables.seqLists ∧
    r.DB.tables.seqItems ≤ (op.apply r).DB.tables.seqItems := by
  cases op with
  | CreateList name =>
    simp only [Op.apply]
    rcases Repository.CreateList_cases r name with ⟨e, h⟩ | ⟨id, hrow, -, h⟩ <;> rw [h]
    · exact ⟨le_refl _, le_refl _⟩
    · exact ⟨le_of_lt (newRowid_gt hrow), le_refl _⟩
  | DeleteList id =>
    simp only [Op.apply, Repository.DeleteList_eq]
    exact ⟨le_refl _, le_refl _⟩
  | CreateItem listID name category =>
    simp only [Op.apply]
    rcases Repository.CreateItem_cases r listID name category with ⟨e, h⟩ | ⟨id, hrow, -, h⟩ <;>
      rw [h]
    · exact ⟨le_refl _, le_refl _⟩
    · exact ⟨le_refl _, le_of_lt (newRowid_gt hrow)⟩
  | UpdateItemChecked id checked =>
    simp only [Op.apply]
    rcases Repository.UpdateItemChecked_cases r id checked with ⟨e, h⟩ | ⟨-, h⟩ <;> rw [h] <;>
      exact ⟨le_refl _, le_refl _⟩
  | UpdateItemCategory id category =>
    simp only [Op.apply]
    rcases Repository.UpdateItemCategory_cases r id category with ⟨e, h⟩ | ⟨-, h⟩ <;> rw [h] <;>
      exact ⟨le_refl _, le_refl _⟩
  | UpdateItemName id name =>
    simp only [Op.apply]
    rcases Repository.UpdateItemName_cases r id name with ⟨e, h⟩ | ⟨-, h⟩ <;> rw [h] <;>
      exact ⟨le_refl _, le_refl _⟩
  | MoveItemToList itemID newListID =>
    simp only [Op.apply]
    rcases Repository.MoveItemToList_cases r itemID newListID with ⟨e, h⟩ | ⟨-, h⟩ <;> rw [h] <;>
      exact ⟨le_refl _, le_refl _⟩
  | _ => exact ⟨le_refl _, le_refl _⟩

theorem runOps_seq_le (ops : List Op) (r : Repository) :
    r.DB.tables.seqLists ≤ (runOps ops r).DB.tables.seqLists ∧
    r.DB.tables.seqItems ≤ (runOps ops r).DB.tables.seqItems := by
  induction ops generalizing r with
  | nil => exact ⟨le_refl _, le_refl _⟩
  | cons op ops ih =>
    have h1 := op.apply_seq_le r
    have h2 := ih (op.apply r)
    exact ⟨le_trans h1.1 h2.1, le_trans h1.2 h2.2⟩

/-- The list ids a sequence of calls returns are above the list counter the
sequence started from, and each is above the ones returned before it. -/
theorem createdListIDs_increasing (ops : List Op) (r : Repository) :
    (∀ id ∈ createdListIDs ops r, r.DB.tables.seqLists < id) ∧
    (createdListIDs ops r).Pairwise (fun a b => a < b) := by
  induction ops generalizing r with
  | nil => exact ⟨fun _ h => (by cases h), List.Pairwise.nil⟩
  | cons op ops ih =>
    obtain ⟨ih1, ih2⟩ := ih (op.apply r)
    have hle := (op.apply_seq_le r).1
    simp only [createdListIDs]
    cases hc : op.createdList r with
    | none =>
      simp only [Option.toList, List.nil_append]
      exact ⟨fun id hid => lt_of_le_of_lt hle (ih1 id hid), ih2⟩
    | some a =>
      obtain ⟨ha, hseq⟩ := Op.createdList_spec hc
      simp only [Option.toList, List.singleton_append]
      constructor
      · intro id hid
        rcases List.mem_cons.1 hid with rfl | hid
        · exact ha
        · exact lt_of_le_of_lt hle (ih1 id hid)
      · rw [List.pairwise_cons]
        refine And.intro ?_ ih2
        intro b hb
        rw [← hseq]
        exact ih1 b hb

/-- The item ids a sequence of calls returns are above the item counter the
sequence started from, and each is above the ones returned before it. -/
theorem createdItemIDs_increasing (ops : List Op) (r : Repository) :
    (∀ id ∈ createdItemIDs ops r, r.DB.tables.seqItems < id) ∧
    (createdItemIDs ops r).Pairwise (fun a b => a < b) := by
  induction ops generalizing r with
  | nil => exact ⟨fun _ h => (by cases h), List.Pairwise.nil⟩
  | cons op ops ih =>
    obtain ⟨ih1, ih2⟩ := ih (op.apply r)
    have hle := (op.apply_seq_le r).2
    simp only [createdItemIDs]
    cases hc : op.createdItem r with
    | none =>
      simp only [Option.toList, List.nil_append]
      exact ⟨fun id hid => lt_of_le_of_lt hle (ih1 id hid), ih2⟩
    | some a =>
      obtain ⟨ha, hseq⟩ := Op.createdItem_spec hc
      simp only [Option.toList, List.singleton_append]
      constructor
      · intro id hid
        rcases List.mem_cons.1 hid with rfl | hid
        · exact ha
        · exact lt_of_le_of_lt hle (ih1 id hid)
      · rw [List.pairwise_cons]
        refine And.intro ?_ ih2
        intro b hb
        rw [← hseq]
        exact ih1 b hb

/-- The counters keep count of the ids given out: every id a sequence of calls
returned is at most the counter of its table after the sequence. -/
theorem createdIDs_le_seq (ops : List Op) (r : Repository) :
    (∀ id ∈ createdListIDs ops r, id ≤ (runOps ops r).DB.tables.seqLists) ∧
    (∀ id ∈ createdItemIDs ops r, id ≤ (runOps ops r).DB.tables.seqItems) := by
  induction ops generalizing r with
  | nil => exact ⟨fun _ h => (by cases h), fun _ h => (by cases h)⟩
  | cons op ops ih =>
    obtain ⟨ih1, ih2⟩ := ih (op.apply r)
    have hle := runOps_seq_le ops (op.apply r)
    simp only [createdListIDs, createdItemIDs, runOps]
    constructor
    · intro id hid
      rcases List.mem_append.1 hid with hid | hid
      · have hc : op.createdList r = some id := by
          cases h : op.createdList r with
          | none => rw [h] at hid; cases hid
          | some a =>
            rw [h] at hid
            simp only [Option.toList, List.mem_singleton] at hid
            rw [hid]
        rw [← (Op.createdList_spec hc).2]
        exact hle.1
      · exact ih1 id hid
    · intro id hid
      rcases List.mem_append.1 hid with hid | hid
      · have hc : op.createdItem r = some id := by
          cases h : op.createdItem r with
          | none => rw [h] at hid; cases hid
          | some a =>
            rw [h] at hid
            simp only [Option.toList, List.mem_singleton] at hid
            rw [hid]
        rw [← (Op.createdItem_spec hc).2]
        exact hle.2
      · exact ih2 id hid

/-! ## Claims C1 and C2: lists and the items that name them -/

/-- Without enforcement `CreateItem` does not look at the table `lists`: it
succeeds whenever the item counter is not used up and the record fits,
whatever `listID` is. -/
theorem CreateItem_of_foreignKeys_off (r : Repository) (listID : Int) (name category : String)
    (hfk : r.DB.foreignKeys = false) (hwf : r.WF) (hroom : r.DB.tables.seqItems < MAX_ROWID)
    (hfit : itemRecordSize listID name category ≤ SQLITE_MAX_LENGTH) :
    (r.CreateItem listID name category).1 = (r.DB.tables.seqItems + 1, none) ∧
      (r.CreateItem listID name category).2.DB.tables.items =
        r.DB.tables.items ++ [⟨r.DB.tables.seqItems + 1, listID, name, category, false⟩] := by
  rw [Repository.CreateItem_of_room listID name category hwf hroom hfit (by simp [hfk])]
  exact ⟨rfl, rfl⟩

/-- With enforcement `CreateItem` for a list that does not exist fails and
leaves the store as it was. -/
theorem CreateItem_rejected_of_foreignKeys_on (r : Repository) (listID : Int)
    (name category : String) (hfk : r.DB.foreignKeys = true)
    (hno : ∀ l ∈ r.GetLists.1, l.ID ≠ listID) :
    (r.CreateItem listID name category).1.2 ≠ none ∧
      (r.CreateItem listID name category).2 = r := by
  simp only [Repository.GetLists, queryLists] at hno
  have hany : r.DB.tables.lists.any (fun l => l.ID == listID) = false := by
    rw [List.any_eq_false]
    intro l hl
    simpa using hno l hl
  rcases Repository.CreateItem_cases r listID name category with ⟨e, h⟩ | ⟨id, hrow, hfit, -⟩
  · rw [h]
    simp
  · rw [Repository.CreateItem_rejected hrow hfit (by simp [hfk, hany])]
    simp

/-- C1, evaluated on the code.  On a new store opened by `NewRepository`, create
the list "Kaufland" (id 1), create the item "Milch" in it (id 1), then call
`DeleteList(1)`: the call succeeds and the list is gone from `GetLists`, but
`GetItems(1)` still returns the item.  The `ON DELETE CASCADE` of the schema
does not run, because the connection does not enforce foreign keys. -/
theorem DeleteList_leaves_items_behind :
    ((NewRepository Tables.empty).1.CreateList "Kaufland").1 = (1, none) ∧
    ((((NewRepository Tables.empty).1.CreateList "Kaufland").2.CreateItem 1
        "Milch" "Milchprodukte").1 = (1, none)) ∧
    (((((NewRepository Tables.empty).1.CreateList "Kaufland").2.CreateItem 1
        "Milch" "Milchprodukte").2.DeleteList 1).1 = none) ∧
    (((((NewRepository Tables.empty).1.CreateList "Kaufland").2.CreateItem 1
        "Milch" "Milchprodukte").2.DeleteList 1).2.GetLists = ([], none)) ∧
    (((((NewRepository Tables.empty).1.CreateList "Kaufland").2.CreateItem 1
        "Milch" "Milchprodukte").2.DeleteList 1).2.GetItems 1 =
      ([{ ID := 1, ListID := 1, Name := "Milch", Category := "Milchprodukte",
          Checked := false }], none)) := by
  decide

/-- C2, evaluated on the code.  On a new store opened by `NewRepository`, which
has no list at all, `CreateItem(42, "Milch", "Milchprodukte")` returns id 1 and
no error, and the store then holds a row for the item: `GetLists` is still
empty while `GetItems(42)` returns the new item.  The `FOREIGN KEY` of the
schema is not checked, because the connection does not enforce foreign keys. -/
theorem CreateItem_accepts_missing_list :
    (NewRepository Tables.empty).1.GetLists = ([], none) ∧
    (NewRepository Tables.empty).1.GetItems 42 = ([], none) ∧
    ((NewRepository Tables.empty).1.CreateItem 42 "Milch" "Milchprodukte").1 = (1, none) ∧
    ((NewRepository Tables.empty).1.CreateItem 42 "Milch" "Milchprodukte").2.GetLists =
      ([], none) ∧
    ((NewRepository Tables.empty).1.CreateItem 42 "Milch" "Milchprodukte").2.GetItems 42 =
      ([{ ID := 1, ListID := 42, Name := "Milch", Category := "Milchprodukte",
          Checked := false }], none) := by
  decide

/-! ## Claim C3: `CreateList` -/

theorem runOps_listRounds (n : Nat) (hn : (n : Int) ≤ MAX_ROWID) :
    runOps (listRounds n) (NewRepository Tables.empty).1 =
      { DB := { foreignKeys := false, tables :=
          { lists := [], items := [], seqLists := n, seqItems := 0 } } } := by
  induction n with
  | zero => rw [NewRepository_eq]; rfl
  | succ n ih =>
    have hn' : (n : Int) < MAX_ROWID := by push_cast at hn; omega
    rw [listRounds, runOps_append, ih (le_of_lt hn')]
    have hwf : Repository.WF { DB := { foreignKeys := false, tables :=
        { lists := [], items := [], seqLists := n, seqItems := 0 } } } :=
      ⟨⟨Int.ofNat_nonneg n, le_of_lt hn'⟩,
        (by decide : (0 : Int) ≤ 0 ∧ (0 : Int) ≤ MAX_ROWID), ⟨List.Pairwise.nil, by simp⟩,
        ⟨List.Pairwise.nil, by simp⟩⟩
    simp only [runOps, Op.apply]
    rw [Repository.CreateList_of_room "" hwf hn' (by decide), Repository.DeleteList_eq]
    simp

/-- C3 as stated fails, in two ways.  The store without rows whose list counter
stands at `2^63 - 1` is a state the repository reaches from a new store (and
it satisfies the invariant), and on it `CreateList("Kaufland")` returns id 0
with the engine error SQLITE_FULL.  And on a new store `CreateList` with a
name of 999999994 bytes, whose record would have `10^9 + 1` bytes, returns
id 0 with the engine error SQLITE_TOOBIG and leaves the store as it was. -/
theorem CreateList_fails_on_used_up_counter_or_long_name :
    (Reachable (NewRepository listCounterUsedUp).1 ∧
      (NewRepository listCounterUsedUp).1.WF ∧
      ((NewRepository listCounterUsedUp).1.CreateList "Kaufland").1 =
        (0, some SqlError.full) ∧
      ((NewRepository listCounterUsedUp).1.CreateList "Kaufland").2.GetLists = ([], none)) ∧
    (NewRepository Tables.empty).1.CreateList (textOfSize 999999994) =
      ((0, some SqlError.tooBig), (NewRepository Tables.empty).1) := by
  refine ⟨⟨⟨listRounds 9223372036854775807, ?_⟩, by decide, by decide, by decide⟩, ?_⟩
  · rw [runOps_listRounds _ (by decide), NewRepository_eq]
    rfl
  · have hsize : (textOfSize 999999994).utf8ByteSize = 999999994 := utf8ByteSize_textOfSize _
    have hb : ¬ SQLITE_MAX_LENGTH < (textOfSize 999999994).utf8ByteSize := by
      rw [hsize]
      decide
    have hrec : SQLITE_MAX_LENGTH < listRecordSize (textOfSize 999999994) := by
      rw [listRecordSize_of_large (by rw [hsize]; decide) (by rw [hsize]; decide), hsize]
      decide
    exact Repository.CreateList_tooBig hb (by rfl : newRowid _ _ = .ok 1) hrec

/-- The longest name `CreateList` takes has 999999993 bytes: its record has
`10^9` bytes. -/
theorem CreateList_longest_name :
    ((NewRepository Tables.empty).1.CreateList (textOfSize 999999993)).1 = (1, none) := by
  have hsize : (textOfSize 999999993).utf8ByteSize = 999999993 := utf8ByteSize_textOfSize _
  have hfit : listRecordSize (textOfSize 999999993) ≤ SQLITE_MAX_LENGTH := by
    rw [listRecordSize_of_large (by rw [hsize]; decide) (by rw [hsize]; decide), hsize]
    decide
  have hrow : newRowid ((NewRepository Tables.empty).1.DB.tables.lists.getLast?.map (·.ID))
      (NewRepository Tables.empty).1.DB.tables.seqLists = .ok 1 := by rfl
  rw [Repository.CreateList_ok (r := (NewRepository Tables.empty).1) hrow hfit]

/-- C3, amended: on every store state that satisfies the invariant of the store
(as every state the repository reaches does) and whose list counter is below
`2^63 - 1`, and for every name (the empty one included) whose record is
within the engine's limit of `10^9` bytes, `CreateList(name)` returns no error
and an id that is positive, is not the id of any list `GetLists` returned
before, and was not returned by any earlier `CreateList` of any sequence of
calls that led to this state; afterwards `GetLists` returns the lists it
returned before, in the same order, followed by one new list with that id and
that name. -/
theorem CreateList_appends_fresh_list (r : Repository) (name : String) (hwf : r.WF)
    (hroom : r.DB.tables.seqLists < MAX_ROWID)
    (hfit : listRecordSize name ≤ SQLITE_MAX_LENGTH) :
    (r.CreateList name).1.2 = none ∧
    0 < (r.CreateList name).1.1 ∧
    (∀ l ∈ r.GetLists.1, l.ID ≠ (r.CreateList name).1.1) ∧
    (∀ (ops : List Op) (r₀ : Repository), runOps ops r₀ = r →
      ∀ id ∈ createdListIDs ops r₀, id ≠ (r.CreateList name).1.1) ∧
    (r.CreateList name).2.GetLists =
      (r.GetLists.1 ++ [{ ID := (r.CreateList name).1.1, Name := name }], none) := by
  rw [Repository.CreateList_of_room name hwf hroom hfit]
  refine ⟨rfl, ?_, ?_, ?_, rfl⟩
  · show 0 < r.DB.tables.seqLists + 1
    have := hwf.1.1
    omega
  · intro l hl
    show l.ID ≠ r.DB.tables.seqLists + 1
    have := (hwf.2.2.1.2 l hl).2
    omega
  · intro ops r₀ hr id hid
    show id ≠ r.DB.tables.seqLists + 1
    have := (createdIDs_le_seq ops r₀).1 id hid
    rw [hr] at this
    omega

/-- TestGetLists: on the store with "List 1" and "List 2" the third `CreateList`
returns id 3, which neither of the two calls before returned, and `GetLists`
returns the three lists in creation order. -/
theorem CreateList_appends_fresh_list_witness :
    twoListsStore.WF ∧ twoListsStore.DB.tables.seqLists < MAX_ROWID ∧
    listRecordSize "List 3" ≤ SQLITE_MAX_LENGTH ∧
    (twoListsStore.CreateList "List 3").1 = (3, none) ∧
    createdListIDs [Op.CreateList "List 1", Op.CreateList "List 2"]
      (NewRepository Tables.empty).1 = [1, 2] ∧
    (twoListsStore.CreateList "List 3").2.GetLists =
      ([{ ID := 1, Name := "List 1" }, { ID := 2, Name := "List 2" },
        { ID := 3, Name := "List 3" }], none) :=
  ⟨by decide, by decide, by decide, by decide, by decide,
    (CreateList_appends_fresh_list twoListsStore "List 3" (by decide) (by decide)
      (by decide)).2.2.2.2.trans (by decide)⟩

/-! ## Claim C4: `CreateItem` and `GetItems` -/

theorem filter_createdItem (listID : Int) (outs : List (Int × Option SqlError))
    (ps : List (String × String)) :
    (List.zipWith (createdItem listID) outs ps).filter (fun i => i.ListID == listID) =
      List.zipWith (createdItem listID) outs ps := by
  induction outs generalizing ps with
  | nil => rfl
  | cons o os ih =>
    cases ps with
    | nil => rfl
    | cons p ps => simp [List.zipWith, createdItem, ih]

theorem createItems_spec (listID : Int) (pairs : List (String × String)) (r : Repository)
    (hwf : r.WF)
    (hfk : (r.DB.foreignKeys && !(r.DB.tables.lists.any (fun l => l.ID == listID))) = false)
    (hroom : r.DB.tables.seqItems + pairs.length ≤ MAX_ROWID)
    (hfit : ∀ p ∈ pairs, itemRecordSize listID p.1 p.2 ≤ SQLITE_MAX_LENGTH) :
    (createItems r listID pairs).1.length = pairs.length ∧
    (∀ o ∈ (createItems r listID pairs).1, o.2 = none ∧ r.DB.tables.seqItems < o.1) ∧
    (createItems r listID pairs).2.DB.tables.items =
      r.DB.tables.items ++ List.zipWith (createdItem listID) (createItems r listID pairs).1 pairs := by
  induction pairs generalizing r with
  | nil => simp [createItems]
  | cons p ps ih =>
    have hlen : ((p :: ps).length : Int) = (ps.length : Int) + 1 := by simp
    have h0 := hwf.2.1.1
    have hlt : r.DB.tables.seqItems < MAX_ROWID := by omega
    have hstep := Repository.CreateItem_of_room listID p.1 p.2 hwf hlt
      (hfit p (List.mem_cons_self _ _)) hfk
    have hwf' := Repository.CreateItem_WF listID p.1 p.2 hwf
    simp only [createItems]
    rw [hstep] at hwf' ⊢
    obtain ⟨h1, h2, h3⟩ := ih _ hwf' hfk (by
      show r.DB.tables.seqItems + 1 + (ps.length : Int) ≤ MAX_ROWID
      omega) (fun q hq => hfit q (List.mem_cons_of_mem _ hq))
    refine ⟨by simp [h1], ?_, ?_⟩
    · intro o ho
      rcases List.mem_cons.1 ho with rfl | ho
      · exact ⟨rfl, by show r.DB.tables.seqItems < r.DB.tables.seqItems + 1; omega⟩
      · have := h2 o ho
        refine ⟨this.1, ?_⟩
        have h4 : r.DB.tables.seqItems + 1 < o.1 := this.2
        omega
    · rw [h3]
      simp [List.zipWith, createdItem]

theorem runOps_itemRounds (ls : List model.List) (s : Int) (n : Nat)
    (hn : (n : Int) ≤ MAX_ROWID) :
    runOps (itemRounds n) { DB := { foreignKeys := false, tables :=
        { lists := ls, items := [], seqLists := s, seqItems := 0 } } } =
      { DB := { foreignKeys := false, tables :=
          { lists := ls, items := [], seqLists := s, seqItems := n } } } := by
  induction n with
  | zero => rfl
  | succ n ih =>
    have hn' : (n : Int) < MAX_ROWID := by push_cast at hn; omega
    rw [itemRounds, runOps_append, ih (le_of_lt hn')]
    simp only [runOps, Op.apply]
    have hrow : newRowid (([] : List model.Item).getLast?.map (·.ID)) (n : Int) =
        .ok ((n : Int) + 1) :=
      newRowid_of_le (Int.ofNat_nonneg n) hn' (by simp)
    rw [Repository.CreateItem_ok hrow (by decide) (Bool.false_and _)]
    simp [Repository.DeleteItem, execDeleteItem]

/-- C4 as stated fails, in two ways.  The store with the one list "Test List"
(id 1), no items and the item counter at `2^63 - 1` is a state the repository
reaches from a new store; list 1 exists and has no items, yet
`CreateItem(1, "Item 1", "Category 1")` returns id 0 with the engine error
SQLITE_FULL, and `GetItems(1)` is still empty afterwards.  And on the store of
TestCreateAndGetItems, where list 1 exists and has no items, `CreateItem` with
a name of 999999991 bytes and an empty category, whose record would have
`10^9 + 1` bytes, returns id 0 with the engine error SQLITE_TOOBIG and leaves
the store as it was. -/
theorem CreateItem_fails_on_used_up_counter_or_long_name :
    (Reachable (NewRepository itemCounterUsedUp).1 ∧
      (NewRepository itemCounterUsedUp).1.WF ∧
      (NewRepository itemCounterUsedUp).1.GetLists =
        ([{ ID := 1, Name := "Test List" }], none) ∧
      (NewRepository itemCounterUsedUp).1.GetItems 1 = ([], none) ∧
      (createItems (NewRepository itemCounterUsedUp).1 1 [("Item 1", "Category 1")]).1 =
        [(0, some SqlError.full)] ∧
      (createItems (NewRepository itemCounterUsedUp).1 1 [("Item 1", "Category 1")]).2.GetItems 1 =
        ([], none)) ∧
    (testListStore.WF ∧
      testListStore.GetLists = ([{ ID := 1, Name := "Test List" }], none) ∧
      testListStore.GetItems 1 = ([], none) ∧
      createItems testListStore 1 [(textOfSize 999999991, "")] =
        ([(0, some SqlError.tooBig)], testListStore)) := by
  refine ⟨⟨⟨Op.CreateList "Test List" :: itemRounds 9223372036854775807, ?_⟩,
    by decide, by decide, by decide, by decide, by decide⟩,
    by decide, by decide, by decide, ?_⟩
  · have h1 : (Op.CreateList "Test List").apply (NewRepository Tables.empty).1 =
        { DB := { foreignKeys := false, tables :=
            { lists := [{ ID := 1, Name := "Test List" }], items := [], seqLists := 1,
              seqItems := 0 } } } := by
      decide
    rw [runOps, h1, runOps_itemRounds _ _ _ (by decide), NewRepository_eq]
    rfl
  · have hsize : (textOfSize 999999991).utf8ByteSize = 999999991 := utf8ByteSize_textOfSize _
    have hb : ¬ (SQLITE_MAX_LENGTH < (textOfSize 999999991).utf8ByteSize ∨
        SQLITE_MAX_LENGTH < "".utf8ByteSize) := by
      rw [hsize]
      decide
    have hrec : SQLITE_MAX_LENGTH < itemRecordSize 1 (textOfSize 999999991) "" := by
      rw [itemRecordSize_of_large 1 (by rw [hsize]; decide) (by rw [hsize]; decide), hsize]
      decide
    have hrow : newRowid (testListStore.DB.tables.items.getLast?.map (·.ID))
        testListStore.DB.tables.seqItems = .ok 1 := by rfl
    have hc := Repository.CreateItem_tooBig (r := testListStore) hb hrow hrec
    show ((testListStore.CreateItem 1 (textOfSize 999999991) "").1 ::
        (createItems (testListStore.CreateItem 1 (textOfSize 999999991) "").2 1 []).1,
      (createItems (testListStore.CreateItem 1 (textOfSize 999999991) "").2 1 []).2) = _
    rw [hc]
    rfl

/-- The longest name `CreateItem` takes for list 1 with an empty category has
999999990 bytes: its record has `10^9` bytes. -/
theorem CreateItem_longest_name :
    (testListStore.CreateItem 1 (textOfSize 999999990) "").1 = (1, none) := by
  have hsize : (textOfSize 999999990).utf8ByteSize = 999999990 := utf8ByteSize_textOfSize _
  have hfit : itemRecordSize 1 (textOfSize 999999990) "" ≤ SQLITE_MAX_LENGTH := by
    rw [itemRecordSize_of_large 1 (by rw [hsize]; decide) (by rw [hsize]; decide), hsize]
    decide
  have hrow : newRowid (testListStore.DB.tables.items.getLast?.map (·.ID))
      testListStore.DB.tables.seqItems = .ok 1 := by rfl
  rw [Repository.CreateItem_ok (r := testListStore) hrow hfit (by rfl)]

/-- C4, amended: take a store state that satisfies the invariant of the store
(as every state the repository reaches does), a list `L` that exists and has
no items, and `n` pairs (name, category) such that the item counter plus `n`
does not exceed `2^63 - 1` and the record of a row of `L` with each pair is
within the engine's limit of `10^9` bytes.  Then the `n` calls
`CreateItem(L, name_i, category_i)`, made in order, all return no error and an
id > 0, and afterwards `GetItems(L)` returns exactly one item per pair, in
creation order, the i-th with the id the i-th call returned, `list_id = L`,
`name_i`, `category_i` and `checked = false`; every item `GetItems(L)` returns
has `list_id = L`. -/
theorem createItems_GetItems_roundtrip (r : Repository) (L : Int)
    (pairs : List (String × String)) (hwf : r.WF)
    (hL : ∃ l ∈ r.GetLists.1, l.ID = L) (hnone : r.GetItems L = ([], none))
    (hroom : r.DB.tables.seqItems + pairs.length ≤ MAX_ROWID)
    (hfit : ∀ p ∈ pairs, itemRecordSize L p.1 p.2 ≤ SQLITE_MAX_LENGTH) :
    (createItems r L pairs).1.length = pairs.length ∧
    (∀ o ∈ (createItems r L pairs).1, o.2 = none ∧ 0 < o.1) ∧
    (createItems r L pairs).2.GetItems L =
      (List.zipWith
        (fun o p => { ID := o.1, ListID := L, Name := p.1, Category := p.2, Checked := false })
        (createItems r L pairs).1 pairs, none) ∧
    (∀ i ∈ ((createItems r L pairs).2.GetItems L).1, i.ListID = L) := by
  obtain ⟨l, hl, hid⟩ := hL
  have hany : r.DB.tables.lists.any (fun l => l.ID == L) = true := by
    rw [List.any_eq_true]
    exact ⟨l, hl, by simp [hid]⟩
  obtain ⟨h1, h2, h3⟩ := createItems_spec L pairs r hwf (by simp [hany]) hroom hfit
  have hnone' : r.DB.tables.items.filter (fun i => i.ListID == L) = [] := by
    simpa [Repository.GetItems, queryItems] using hnone
  refine ⟨h1, fun o ho => ⟨(h2 o ho).1, ?_⟩, ?_, ?_⟩
  · have := (h2 o ho).2
    have := hwf.2.1.1
    omega
  · simp only [Repository.GetItems, queryItems, h3, List.filter_append, hnone',
      filter_createdItem, List.nil_append]
    rfl
  · intro i hi
    simp only [Repository.GetItems, queryItems] at hi
    simpa using (List.mem_filter.1 hi).2

/-- TestCreateAndGetItems: the three `CreateItem` calls return the ids 1, 2, 3
and `GetItems` returns the three items in creation order. -/
theorem createItems_GetItems_roundtrip_witness :
    testListStore.WF ∧ (∃ l ∈ testListStore.GetLists.1, l.ID = 1) ∧
    testListStore.GetItems 1 = ([], none) ∧
    (∀ p ∈ [("Item 1", "Category 1"), ("Item 2", "Category 2"), ("Item 3", "Category 1")],
      itemRecordSize 1 p.1 p.2 ≤ SQLITE_MAX_LENGTH) ∧
    (createItems testListStore 1
      [("Item 1", "Category 1"), ("Item 2", "Category 2"), ("Item 3", "Category 1")]).1 =
      [(1, none), (2, none), (3, none)] ∧
    (createItems testListStore 1
      [("Item 1", "Category 1"), ("Item 2", "Category 2"), ("Item 3", "Category 1")]).2.GetItems 1 =
      ([{ ID := 1, ListID := 1, Name := "Item 1", Category := "Category 1", Checked := false },
        { ID := 2, ListID := 1, Name := "Item 2", Category := "Category 2", Checked := false },
        { ID := 3, ListID := 1, Name := "Item 3", Category := "Category 1", Checked := false }],
       none) :=
  ⟨by decide, by decide, by decide, by decide, by decide,
    (createItems_GetItems_roundtrip testListStore 1
      [("Item 1", "Category 1"), ("Item 2", "Category 2"), ("Item 3", "Category 1")]
      (by decide) (by decide) (by decide) (by decide) (by decide)).2.2.1.trans (by decide)⟩

/-! ## Claim C5: `ClearCheckedItems` -/

/-- C5: for every store state and every list id `L`, `ClearCheckedItems(L)`
returns no error, and afterwards an item is in the store exactly when it was
there before and is not a checked item of `L`; the items left are in their old
relative order with all fields unchanged.  So `GetItems(L)` returns what it
returned before without the checked items, `GetItems` of every other list and
`GetLists` return what they returned before. -/
theorem ClearCheckedItems_removes_checked_of_list (r : Repository) (L : Int) :
    (r.ClearCheckedItems L).1 = none ∧
    (∀ i, i ∈ (r.ClearCheckedItems L).2.DB.tables.items ↔
      i ∈ r.DB.tables.items ∧ ¬ (i.ListID = L ∧ i.Checked = true)) ∧
    (r.ClearCheckedItems L).2.DB.tables.items.Sublist r.DB.tables.items ∧
    (r.ClearCheckedItems L).2.GetItems L =
      ((r.GetItems L).1.filter (fun i => !i.Checked), none) ∧
    (∀ l, l ≠ L → (r.ClearCheckedItems L).2.GetItems l = r.GetItems l) ∧
    (r.ClearCheckedItems L).2.GetLists = r.GetLists := by
  refine ⟨rfl, ?_, ?_, ?_, ?_, rfl⟩
  · intro i
    simp only [Repository.ClearCheckedItems, execDeleteChecked, List.mem_filter]
    by_cases h : i.ListID = L <;> cases hc : i.Checked <;> simp [h, hc]
  · exact List.filter_sublist _
  · simp only [Repository.ClearCheckedItems, execDeleteChecked, Repository.GetItems,
      queryItems, List.filter_filter, Prod.mk.injEq, and_true]
    apply List.filter_congr
    intro i _
    cases hb : (i.ListID == L) <;> cases hc : i.Checked <;> rfl
  · intro l hl
    simp only [Repository.ClearCheckedItems, execDeleteChecked, Repository.GetItems,
      queryItems, List.filter_filter, Prod.mk.injEq, and_true]
    apply List.filter_congr
    intro i _
    cases hb : (i.ListID == l)
    · rfl
    · have hL : (i.ListID == L) = false := by
        rw [beq_iff_eq] at hb
        rw [beq_eq_false_iff_ne]
        exact fun h' => hl (hb.symm.trans h')
      rw [hL]
      rfl

/-- TestClearCheckedItems: of Item 1 (checked), Item 2 (not checked) and Item 3
(checked) only Item 2 is left. -/
theorem ClearCheckedItems_removes_checked_of_list_witness :
    (checkedItemsStore.ClearCheckedItems 1).2.GetItems 1 =
      ([{ ID := 2, ListID := 1, Name := "Item 2", Category := "Category", Checked := false }],
       none) :=
  (ClearCheckedItems_removes_checked_of_list checkedItemsStore 1).2.2.2.1.trans (by decide)

/-! ## Claim C6: `MoveItemToList` -/

theorem filter_listID_map (f : model.Item → model.Item) (hf : ∀ i, (f i).ListID = i.ListID)
    (items : List model.Item) (l : Int) :
    (items.map f).filter (fun i => i.ListID == l) =
      (items.filter (fun i => i.ListID == l)).map f := by
  rw [List.filter_map]
  congr 1
  apply List.filter_congr
  intro i _
  simp [hf i]

theorem mem_GetItems {r : Repository} {l : Int} {x : model.Item} :
    x ∈ (r.GetItems l).1 ↔ x ∈ r.DB.tables.items ∧ x.ListID = l := by
  simp [Repository.GetItems, queryItems, List.mem_filter]

theorem updateTooBig_of_unique {r : Repository} (hwf : r.WF) {x : model.Item}
    (hx : x ∈ r.DB.tables.items) (f : model.Item → model.Item)
    (hfit : (f x).recordSize ≤ SQLITE_MAX_LENGTH) :
    updateTooBig r.DB.tables.items x.ID f = false := by
  rw [updateTooBig_eq_false]
  intro i hi hid
  have := hwf.2.2.2.eq_of_rowid_eq hi hx hid
  subst this
  exact hfit

theorem runOps_cons (op : Op) (ops : List Op) (r : Repository) :
    runOps (op :: ops) r = runOps ops (op.apply r) := rfl

theorem runOps_nil (r : Repository) : runOps [] r = r := rfl

theorem Op.apply_CreateItem (listID : Int) (name category : String) (r : Repository) :
    (Op.CreateItem listID name category).apply r = (r.CreateItem listID name category).2 := rfl

theorem longNameItemStore_eq :
    longNameItemStore 999999990 =
      { DB := { foreignKeys := false, tables :=
          { lists := [{ ID := 1, Name := "List 1" }, { ID := 2, Name := "List 2" }],
            items := [{ ID := 1, ListID := 1, Name := textOfSize 999999990, Category := "",
                        Checked := false }],
            seqLists := 2, seqItems := 1 } } } := by
  have h2 : (Op.CreateList "List 2").apply
      ((Op.CreateList "List 1").apply (NewRepository Tables.empty).1) =
      { DB := { foreignKeys := false, tables :=
          { lists := [{ ID := 1, Name := "List 1" }, { ID := 2, Name := "List 2" }],
            items := [], seqLists := 2, seqItems := 0 } } } := by
    decide
  have hsize : (textOfSize 999999990).utf8ByteSize = 999999990 := utf8ByteSize_textOfSize _
  have hfit : itemRecordSize 1 (textOfSize 999999990) "" ≤ SQLITE_MAX_LENGTH := by
    rw [itemRecordSize_of_large 1 (by rw [hsize]; decide) (by rw [hsize]; decide), hsize]
    decide
  have hrow : newRowid (([] : List model.Item).getLast?.map (·.ID)) 0 = .ok 1 := by rfl
  unfold longNameItemStore
  rw [runOps_cons, runOps_cons, runOps_cons, runOps_nil, Op.apply_CreateItem, h2,
    Repository.CreateItem_ok hrow hfit (Bool.false_and _)]
  rfl

/-- C6 as stated fails.  Take the store of TestMoveItemToList, with "List 1"
(id 1), "List 2" (id 2) and one item in list 1, the item having a name of
999999990 bytes and an empty category; the repository reaches it from a new
store, the record of the item having exactly `10^9` bytes.  With `list_id = 2`
the record would take one byte more, so `MoveItemToList(1, 2)` returns the
engine error SQLITE_TOOBIG and leaves the store as it was: the item is still
in `GetItems(1)` and `GetItems(2)` is empty. -/
theorem MoveItemToList_fails_on_record_at_limit :
    Reachable (longNameItemStore 999999990) ∧
    (longNameItemStore 999999990).WF ∧
    (∃ l ∈ (longNameItemStore 999999990).GetLists.1, l.ID = 1) ∧
    (∃ l ∈ (longNameItemStore 999999990).GetLists.1, l.ID = 2) ∧
    ({ ID := 1, ListID := 1, Name := textOfSize 999999990, Category := "", Checked := false } :
      model.Item) ∈ ((longNameItemStore 999999990).GetItems 1).1 ∧
    (longNameItemStore 999999990).MoveItemToList 1 2 =
      (some SqlError.tooBig, longNameItemStore 999999990) ∧
    ((longNameItemStore 999999990).GetItems 2).1 = [] := by
  have hreach : Reachable (longNameItemStore 999999990) := ⟨_, rfl⟩
  have hsize : (textOfSize 999999990).utf8ByteSize = 999999990 := utf8ByteSize_textOfSize _
  have hrec : SQLITE_MAX_LENGTH < itemRecordSize 2 (textOfSize 999999990) "" := by
    rw [itemRecordSize_of_large 2 (by rw [hsize]; decide) (by rw [hsize]; decide), hsize]
    decide
  refine ⟨hreach, hreach.WF, ?_, ?_, ?_, ?_, ?_⟩
  · rw [longNameItemStore_eq]
    exact ⟨{ ID := 1, Name := "List 1" }, List.mem_cons_self _ _, rfl⟩
  · rw [longNameItemStore_eq]
    exact ⟨{ ID := 2, Name := "List 2" }, List.mem_cons_of_mem _ (List.mem_cons_self _ _), rfl⟩
  · rw [longNameItemStore_eq]
    exact mem_GetItems.2 ⟨List.mem_cons_self _ _, rfl⟩
  · refine Repository.MoveItemToList_tooBig ?_
    rw [longNameItemStore_eq]
    unfold updateTooBig
    rw [List.any_eq_true]
    exact ⟨_, List.mem_cons_self _ _, Bool.and_eq_true_iff.2 ⟨rfl, decide_eq_true hrec⟩⟩
  · rw [longNameItemStore_eq]
    rfl

/-- C6, amended: take a store state that satisfies the invariant of the store
(as every state the repository reaches does), two different list ids `L1` and
`L2` of which `L2` is the id of an existing list, and an item `x` that
`GetItems(L1)` returns and whose record with `list_id = L2` is within the
engine's limit of `10^9` bytes.  Then `MoveItemToList(x.id, L2)` returns no
error; afterwards `GetItems(L1)` returns no item with the id of `x`;
`GetItems(L2)` returns `x` with `list_id = L2` and id, name, category and
checked as before, and no other item with that id; for every list the items
with another id are returned as before, in the same order; and `GetLists`
returns what it returned before. -/
theorem MoveItemToList_moves_item (r : Repository) (L1 L2 : Int) (x : model.Item)
    (hwf : r.WF) (hne : L1 ≠ L2) (hL2 : ∃ l ∈ r.GetLists.1, l.ID = L2)
    (hx : x ∈ (r.GetItems L1).1)
    (hfit : itemRecordSize L2 x.Name x.Category ≤ SQLITE_MAX_LENGTH) :
    (r.MoveItemToList x.ID L2).1 = none ∧
    (∀ y ∈ ((r.MoveItemToList x.ID L2).2.GetItems L1).1, y.ID ≠ x.ID) ∧
    ({ x with ListID := L2 } ∈ ((r.MoveItemToList x.ID L2).2.GetItems L2).1) ∧
    (∀ y ∈ ((r.MoveItemToList x.ID L2).2.GetItems L2).1, y.ID = x.ID →
      y = { x with ListID := L2 }) ∧
    (∀ l, ((r.MoveItemToList x.ID L2).2.GetItems l).1.filter (fun y => !(y.ID == x.ID)) =
      (r.GetItems l).1.filter (fun y => !(y.ID == x.ID))) ∧
    (r.MoveItemToList x.ID L2).2.GetLists = r.GetLists := by
  obtain ⟨l2, hl2, hid2⟩ := hL2
  have hany : r.DB.tables.lists.any (fun l => l.ID == L2) = true := by
    rw [List.any_eq_true]
    exact ⟨l2, hl2, by simp [hid2]⟩
  obtain ⟨hxmem, hxL⟩ := mem_GetItems.1 hx
  rw [Repository.MoveItemToList_ok
    (updateTooBig_of_unique hwf hxmem (fun i => { i with ListID := L2 }) hfit)
    (by simp [hany])]
  have hmem : ∀ {l : Int} {y : model.Item},
      y ∈ (Repository.GetItems { DB := { r.DB with tables := { r.DB.tables with
        items := r.DB.tables.items.map
          (fun i => if i.ID == x.ID then { i with ListID := L2 } else i) } } } l).1 ↔
      ∃ i ∈ r.DB.tables.items,
        (if i.ID == x.ID then { i with ListID := L2 } else i) = y ∧ y.ListID = l := by
    intro l y
    rw [mem_GetItems]
    simp only [List.mem_map]
    constructor
    · rintro ⟨⟨i, hi, rfl⟩, h⟩
      exact ⟨i, hi, rfl, h⟩
    · rintro ⟨i, hi, rfl, h⟩
      exact ⟨⟨i, hi, rfl⟩, h⟩
  refine ⟨rfl, ?_, ?_, ?_, ?_, rfl⟩
  · intro y hy
    obtain ⟨i, -, hiy, hyL⟩ := hmem.1 hy
    by_cases hi : i.ID = x.ID
    · rw [if_pos (by simp [hi])] at hiy
      subst hiy
      exact absurd hyL.symm hne
    · rw [if_neg (by simp [hi])] at hiy
      subst hiy
      exact hi
  · exact hmem.2 ⟨x, hxmem, by simp, rfl⟩
  · intro y hy hyx
    obtain ⟨i, hi, hiy, -⟩ := hmem.1 hy
    have hix : i.ID = x.ID := by
      rw [← hyx, ← hiy]
      split <;> rfl
    have := hwf.2.2.2.eq_of_rowid_eq hi hxmem hix
    subst this
    rw [← hiy]
    simp
  · intro l
    simp only [Repository.GetItems, queryItems]
    induction r.DB.tables.items with
    | nil => rfl
    | cons i is ih =>
      by_cases hi : i.ID = x.ID
      · by_cases hl : i.ListID = l <;> by_cases hl2 : L2 = l <;>
          simp [List.filter_cons, hi, hl, hl2] at ih ⊢ <;> exact ih
      · by_cases hl : i.ListID = l <;>
          simp [List.filter_cons, hi, hl] at ih ⊢ <;> exact ih

/-- TestMoveItemToList: after the move list 1 has no items and list 2 holds
the item, with `list_id = 2`. -/
theorem MoveItemToList_moves_item_witness :
    twoListsOneItemStore.WF ∧
    itemRecordSize 2 "Test Item" "Test Category" ≤ SQLITE_MAX_LENGTH ∧
    (twoListsOneItemStore.MoveItemToList 1 2).2.GetItems 1 = ([], none) ∧
    (twoListsOneItemStore.MoveItemToList 1 2).2.GetItems 2 =
      ([{ ID := 1, ListID := 2, Name := "Test Item", Category := "Test Category",
          Checked := false }], none) ∧
    ({ ID := 1, ListID := 2, Name := "Test Item", Category := "Test Category",
       Checked := false } : model.Item) ∈
      ((twoListsOneItemStore.MoveItemToList 1 2).2.GetItems 2).1 :=
  ⟨by decide, by decide, by decide, by decide,
    (MoveItemToList_moves_item twoListsOneItemStore 1 2
      { ID := 1, ListID := 1, Name := "Test Item", Category := "Test Category",
        Checked := false }
      (by decide) (by decide) (by decide) (by decide) (by decide)).2.2.1⟩

/-! ## Claim C7: the three updates -/

theorem map_update_eq_replaceItem {items : List model.Item} {seq : Int}
    (hok : RowsOK model.Item.ID items seq) {x : model.Item} (hx : x ∈ items)
    (f : model.Item → model.Item) :
    items.map (fun i => if i.ID == x.ID then f i else i) = replaceItem x (f x) items := by
  apply List.map_congr_left
  intro y hy
  by_cases h : y = x
  · subst h
    simp
  · have hid : ¬ y.ID = x.ID := fun hid => h (hok.eq_of_rowid_eq hy hx hid)
    simp [h, hid]

theorem GetItems_replaceItem (r : Repository) (x x' : model.Item) (hL : x'.ListID = x.ListID)
    (l : Int) :
    Repository.GetItems { DB := { r.DB with tables := { r.DB.tables with
      items := replaceItem x x' r.DB.tables.items } } } l =
      (replaceItem x x' (r.GetItems l).1, none) := by
  simp only [Repository.GetItems, queryItems, replaceItem]
  rw [filter_listID_map]
  intro i
  split
  · next h => rw [hL, h]
  · rfl

theorem oneItemStore_items :
    oneItemStore.DB.tables.items =
      [{ ID := 1, ListID := 1, Name := "Test Item", Category := "Test Category",
         Checked := false }] := by
  decide

/-- C7 as stated fails.  On the store of TestUpdateItem, which the repository
reaches from a new store and whose one item (id 1, list 1) is "Test Item" of
"Test Category", `UpdateItemName` with a name of 999999978 bytes and
`UpdateItemCategory` with a category of 999999982 bytes each return the
engine error SQLITE_TOOBIG, because the record of the row would have
`10^9 + 1` bytes, and leave the store as it was: `GetItems(1)` still returns
the item with its old name and category. -/
theorem UpdateItem_fails_on_long_text :
    Reachable oneItemStore ∧
    oneItemStore.GetItems 1 =
      ([{ ID := 1, ListID := 1, Name := "Test Item", Category := "Test Category",
          Checked := false }], none) ∧
    oneItemStore.UpdateItemName 1 (textOfSize 999999978) =
      (some SqlError.tooBig, oneItemStore) ∧
    oneItemStore.UpdateItemCategory 1 (textOfSize 999999982) =
      (some SqlError.tooBig, oneItemStore) := by
  refine ⟨⟨_, rfl⟩, by decide, ?_, ?_⟩
  · have hsize : (textOfSize 999999978).utf8ByteSize = 999999978 := utf8ByteSize_textOfSize _
    have hrec : SQLITE_MAX_LENGTH <
        itemRecordSize 1 (textOfSize 999999978) "Test Category" := by
      rw [itemRecordSize, hsize]
      decide
    refine Repository.UpdateItemName_tooBig ?_
    rw [oneItemStore_items]
    unfold updateTooBig
    rw [List.any_eq_true]
    exact ⟨_, List.mem_cons_self _ _, Bool.and_eq_true_iff.2 ⟨rfl, decide_eq_true hrec⟩⟩
  · have hsize : (textOfSize 999999982).utf8ByteSize = 999999982 := utf8ByteSize_textOfSize _
    have hrec : SQLITE_MAX_LENGTH <
        itemRecordSize 1 "Test Item" (textOfSize 999999982) := by
      rw [itemRecordSize, hsize]
      decide
    refine Repository.UpdateItemCategory_tooBig ?_
    rw [oneItemStore_items]
    unfold updateTooBig
    rw [List.any_eq_true]
    exact ⟨_, List.mem_cons_self _ _, Bool.and_eq_true_iff.2 ⟨rfl, decide_eq_true hrec⟩⟩

/-- C7, amended: take a store state the repository reaches from a new store
and an item `x` that `GetItems(x.list_id)` returns.  Then
`UpdateItemChecked(x.id, c)` returns no error, and so does
`UpdateItemCategory(x.id, s)` when the record of `x` with category `s` is
within the engine's limit of `10^9` bytes, and `UpdateItemName(x.id, s)` when
the record of `x` with name `s` is.  After a call that returned no error
`GetItems` of every list returns what it returned before with `x` replaced, in
place, by `x` with the one field set to the supplied value (id, list_id and
the two other fields as before): the other items, the number of items and
their order are unchanged, and `GetItems(x.list_id)` contains the updated `x`.
`GetLists` returns what it returned before. -/
theorem UpdateItem_sets_one_field (r : Repository) (x : model.Item) (c : Bool) (s : String)
    (hreach : Reachable r) (hx : x ∈ (r.GetItems x.ListID).1) :
    ((r.UpdateItemChecked x.ID c).1 = none ∧
      (∀ l, (r.UpdateItemChecked x.ID c).2.GetItems l =
        (replaceItem x { x with Checked := c } (r.GetItems l).1, none)) ∧
      { x with Checked := c } ∈ ((r.UpdateItemChecked x.ID c).2.GetItems x.ListID).1 ∧
      (r.UpdateItemChecked x.ID c).2.GetLists = r.GetLists) ∧
    (itemRecordSize x.ListID x.Name s ≤ SQLITE_MAX_LENGTH →
      (r.UpdateItemCategory x.ID s).1 = none ∧
      (∀ l, (r.UpdateItemCategory x.ID s).2.GetItems l =
        (replaceItem x { x with Category := s } (r.GetItems l).1, none)) ∧
      { x with Category := s } ∈ ((r.UpdateItemCategory x.ID s).2.GetItems x.ListID).1 ∧
      (r.UpdateItemCategory x.ID s).2.GetLists = r.GetLists) ∧
    (itemRecordSize x.ListID s x.Category ≤ SQLITE_MAX_LENGTH →
      (r.UpdateItemName x.ID s).1 = none ∧
      (∀ l, (r.UpdateItemName x.ID s).2.GetItems l =
        (replaceItem x { x with Name := s } (r.GetItems l).1, none)) ∧
      { x with Name := s } ∈ ((r.UpdateItemName x.ID s).2.GetItems x.ListID).1 ∧
      (r.UpdateItemName x.ID s).2.GetLists = r.GetLists) := by
  have hwf := hreach.WF
  have hxmem := (mem_GetItems.1 hx).1
  have hrep : ∀ x' : model.Item, x' ∈ replaceItem x x' (r.GetItems x.ListID).1 := by
    intro x'
    simp only [replaceItem, List.mem_map]
    exact ⟨x, hx, by simp⟩
  refine ⟨?_, ?_, ?_⟩
  · have hcall := Repository.UpdateItemChecked_ok
      (updateTooBig_of_unique hwf hxmem (fun i => { i with Checked := c })
        (hreach.Fits x hxmem))
    rw [map_update_eq_replaceItem hwf.2.2.2 hxmem (fun i => { i with Checked := c })] at hcall
    have hg := GetItems_replaceItem r x { x with Checked := c } rfl
    rw [hcall]
    exact ⟨rfl, fun l => hg l, by rw [hg]; exact hrep _, rfl⟩
  · intro hfit
    have hcall := Repository.UpdateItemCategory_ok
      (le_trans (utf8ByteSize_le_itemRecordSize x.ListID x.Name s).2 hfit)
      (updateTooBig_of_unique hwf hxmem (fun i => { i with Category := s }) hfit)
    rw [map_update_eq_replaceItem hwf.2.2.2 hxmem (fun i => { i with Category := s })] at hcall
    have hg := GetItems_replaceItem r x { x with Category := s } rfl
    rw [hcall]
    exact ⟨rfl, fun l => hg l, by rw [hg]; exact hrep _, rfl⟩
  · intro hfit
    have hcall := Repository.UpdateItemName_ok
      (le_trans (utf8ByteSize_le_itemRecordSize x.ListID s x.Category).1 hfit)
      (updateTooBig_of_unique hwf hxmem (fun i => { i with Name := s }) hfit)
    rw [map_update_eq_replaceItem hwf.2.2.2 hxmem (fun i => { i with Name := s })] at hcall
    have hg := GetItems_replaceItem r x { x with Name := s } rfl
    rw [hcall]
    exact ⟨rfl, fun l => hg l, by rw [hg]; exact hrep _, rfl⟩

/-- TestUpdateItem: each update, made on the store with the one item, shows in
`GetItems` and leaves the other fields alone. -/
theorem UpdateItem_sets_one_field_witness :
    Reachable oneItemStore ∧
    itemRecordSize 1 "Test Item" "New Category" ≤ SQLITE_MAX_LENGTH ∧
    itemRecordSize 1 "New Name" "Test Category" ≤ SQLITE_MAX_LENGTH ∧
    (oneItemStore.UpdateItemChecked 1 true).2.GetItems 1 =
      ([{ ID := 1, ListID := 1, Name := "Test Item", Category := "Test Category",
          Checked := true }], none) ∧
    (oneItemStore.UpdateItemCategory 1 "New Category").2.GetItems 1 =
      ([{ ID := 1, ListID := 1, Name := "Test Item", Category := "New Category",
          Checked := false }], none) ∧
    (oneItemStore.UpdateItemName 1 "New Name").2.GetItems 1 =
      ([{ ID := 1, ListID := 1, Name := "New Name", Category := "Test Category",
          Checked := false }], none) ∧
    ({ ID := 1, ListID := 1, Name := "Test Item", Category := "Test Category",
       Checked := true } : model.Item) ∈ ((oneItemStore.UpdateItemChecked 1 true).2.GetItems 1).1 ∧
    ({ ID := 1, ListID := 1, Name := "Test Item", Category := "New Category",
       Checked := false } : model.Item) ∈
      ((oneItemStore.UpdateItemCategory 1 "New Category").2.GetItems 1).1 ∧
    ({ ID := 1, ListID := 1, Name := "New Name", Category := "Test Category",
       Checked := false } : model.Item) ∈
      ((oneItemStore.UpdateItemName 1 "New Name").2.GetItems 1).1 :=
  ⟨⟨_, rfl⟩, by decide, by decide, by decide, by decide, by decide,
    (UpdateItem_sets_one_field oneItemStore
      { ID := 1, ListID := 1, Name := "Test Item", Category := "Test Category",
        Checked := false }
      true "New Name" ⟨_, rfl⟩ (by decide)).1.2.2.1,
    ((UpdateItem_sets_one_field oneItemStore
      { ID := 1, ListID := 1, Name := "Test Item", Category := "Test Category",
        Checked := false }
      true "New Category" ⟨_, rfl⟩ (by decide)).2.1 (by decide)).2.2.1,
    ((UpdateItem_sets_one_field oneItemStore
      { ID := 1, ListID := 1, Name := "Test Item", Category := "Test Category",
        Checked := false }
      true "New Name" ⟨_, rfl⟩ (by decide)).2.2 (by decide)).2.2.1⟩

/-! ## Claims C8 and C9: the deletes -/

theorem filter_rowid_ne_eq_erase {items : List model.Item} {seq : Int}
    (hok : RowsOK model.Item.ID items seq) {x : model.Item} (hx : x ∈ items) :
    items.filter (fun i => !(i.ID == x.ID)) = items.erase x := by
  rw [hok.nodup.erase_eq_filter]
  apply List.filter_congr
  intro y hy
  by_cases h : y = x
  · subst h
    simp
  · have hid : ¬ y.ID = x.ID := fun hid => h (hok.eq_of_rowid_eq hy hx hid)
    have h1 : (y.ID == x.ID) = false := beq_eq_false_iff_ne.2 hid
    have h2 : (y != x) = true := bne_iff_ne.2 h
    rw [h1, h2]
    rfl

/-- C8: take a store state that satisfies the invariant and an item `x` that
`GetItems(x.list_id)` returns.  Then `DeleteItem(x.id)` returns no error, and
afterwards the items of the store are the items from before with `x` taken
out, all others as they were and in the same order; `GetItems` of every list
returns what it returned before without `x`, so `GetItems(x.list_id)` no
longer contains `x` nor any item with its id; `GetLists` returns what it
returned before. -/
theorem DeleteItem_removes_item (r : Repository) (x : model.Item) (hwf : r.WF)
    (hx : x ∈ (r.GetItems x.ListID).1) :
    (r.DeleteItem x.ID).1 = none ∧
    (r.DeleteItem x.ID).2.DB.tables.items = r.DB.tables.items.erase x ∧
    (∀ l, (r.DeleteItem x.ID).2.GetItems l = ((r.GetItems l).1.erase x, none)) ∧
    x ∉ ((r.DeleteItem x.ID).2.GetItems x.ListID).1 ∧
    (∀ y ∈ ((r.DeleteItem x.ID).2.GetItems x.ListID).1, y.ID ≠ x.ID) ∧
    (r.DeleteItem x.ID).2.GetLists = r.GetLists := by
  have hxmem := (mem_GetItems.1 hx).1
  have hok := hwf.2.2.2
  have hitems : (r.DeleteItem x.ID).2.DB.tables.items = r.DB.tables.items.erase x :=
    filter_rowid_ne_eq_erase hok hxmem
  have hget : ∀ l, (r.DeleteItem x.ID).2.GetItems l = ((r.GetItems l).1.erase x, none) := by
    intro l
    simp only [Repository.GetItems, queryItems, hitems, Prod.mk.injEq, and_true]
    rw [hok.nodup.erase_eq_filter, (hok.nodup.filter _).erase_eq_filter, List.filter_filter,
      List.filter_filter]
    apply List.filter_congr
    intro y _
    exact Bool.and_comm _ _
  refine ⟨rfl, hitems, hget, ?_, ?_, rfl⟩
  · rw [hget]
    exact fun h => ((hok.nodup.filter _).mem_erase_iff.1 h).1 rfl
  · intro y hy
    rw [mem_GetItems] at hy
    have hy' : y ∈ r.DB.tables.items.filter (fun i => !(i.ID == x.ID)) := hy.1
    simpa using (List.mem_filter.1 hy').2

/-- TestDeleteItem: after `DeleteItem` of the only item no item is left. -/
theorem DeleteItem_removes_item_witness :
    oneItemStore.WF ∧
    (oneItemStore.DeleteItem 1).1 = none ∧
    (oneItemStore.DeleteItem 1).2.GetItems 1 = ([], none) ∧
    (oneItemStore.DeleteItem 1).2.DB.tables.items = [] :=
  ⟨by decide, by decide, by decide,
    (DeleteItem_removes_item oneItemStore
      { ID := 1, ListID := 1, Name := "Test Item", Category := "Test Category",
        Checked := false }
      (by decide) (by decide)).2.1.trans (by decide)⟩

/-- C9: for every store state, `DeleteItem(id)` with an id that no item of the
store has returns no error and leaves the store as it was, and so does
`DeleteList(id)` with an id that no list `GetLists` returns: after either call
`GetLists` and `GetItems(l)` for every `l` return what they returned before. -/
theorem Delete_of_absent_id (r : Repository) (id : Int) :
    ((∀ i ∈ r.DB.tables.items, i.ID ≠ id) →
      (r.DeleteItem id).1 = none ∧ (r.DeleteItem id).2 = r ∧
      (r.DeleteItem id).2.GetLists = r.GetLists ∧
      ∀ l, (r.DeleteItem id).2.GetItems l = r.GetItems l) ∧
    ((∀ l ∈ r.GetLists.1, l.ID ≠ id) →
      (r.DeleteList id).1 = none ∧ (r.DeleteList id).2 = r ∧
      (r.DeleteList id).2.GetLists = r.GetLists ∧
      ∀ l, (r.DeleteList id).2.GetItems l = r.GetItems l) := by
  constructor
  · intro h
    have hr : (r.DeleteItem id).2 = r := by
      simp only [Repository.DeleteItem, execDeleteItem]
      rw [List.filter_eq_self.2 (fun i hi => by simpa using h i hi)]
    exact ⟨rfl, hr, by rw [hr], fun l => by rw [hr]⟩
  · intro h
    simp only [Repository.GetLists, queryLists] at h
    have hany : r.DB.tables.lists.any (fun l => l.ID == id) = false := by
      rw [List.any_eq_false]
      intro l hl
      simpa using h l hl
    have hr : (r.DeleteList id).2 = r := by
      rw [Repository.DeleteList_eq]
      simp only [hany, Bool.and_false, Bool.false_eq_true, if_false]
      rw [List.filter_eq_self.2 (fun l hl => by simpa using h l hl)]
    exact ⟨by rw [Repository.DeleteList_eq], hr, by rw [hr], fun l => by rw [hr]⟩

/-- On the store with one list and one item, both of id 1, `DeleteItem(7)` and
`DeleteList(7)` return no error and leave the store as it was. -/
theorem Delete_of_absent_id_witness :
    (∀ i ∈ oneItemStore.DB.tables.items, i.ID ≠ 7) ∧
    (∀ l ∈ oneItemStore.GetLists.1, l.ID ≠ 7) ∧
    (oneItemStore.DeleteItem 7).1 = none ∧ (oneItemStore.DeleteItem 7).2 = oneItemStore ∧
    (oneItemStore.DeleteList 7).1 = none ∧ (oneItemStore.DeleteList 7).2 = oneItemStore :=
  ⟨by decide, by decide,
    ((Delete_of_absent_id oneItemStore 7).1 (by decide)).1,
    ((Delete_of_absent_id oneItemStore 7).1 (by decide)).2.1,
    ((Delete_of_absent_id oneItemStore 7).2 (by decide)).1,
    ((Delete_of_absent_id oneItemStore 7).2 (by decide)).2.1⟩

/-! ## Claim C10: ids are not given out twice -/

/-- C10: in every sequence of calls of the methods of the repository, starting
from a new store, the ids returned by the successful `CreateList` calls are
pairwise different, and so are the ids returned by the successful `CreateItem`
calls; each is even larger than all returned before it, whatever was deleted
in between. -/
theorem created_ids_never_reused (ops : List Op) :
    (createdListIDs ops (NewRepository Tables.empty).1).Nodup ∧
    (createdItemIDs ops (NewRepository Tables.empty).1).Nodup ∧
    (createdListIDs ops (NewRepository Tables.empty).1).Pairwise (fun a b => a < b) ∧
    (createdItemIDs ops (NewRepository Tables.empty).1).Pairwise (fun a b => a < b) :=
  ⟨(createdListIDs_increasing ops _).2.imp (fun {_ _} h => ne_of_lt h),
    (createdItemIDs_increasing ops _).2.imp (fun {_ _} h => ne_of_lt h),
    (createdListIDs_increasing ops _).2, (createdItemIDs_increasing ops _).2⟩

/-- After `DeleteList` of the list with the largest id, `DeleteItem` of the item
with the largest id and `ClearCheckedItems`, the next ids are still new ones:
lists get 1, 2, 3 and items 1, 2, 3, 4. -/
theorem created_ids_never_reused_witness :
    createdListIDs deleteLargestThenCreate (NewRepository Tables.empty).1 = [1, 2, 3] ∧
    createdItemIDs deleteLargestThenCreate (NewRepository Tables.empty).1 = [1, 2, 3, 4] ∧
    (runOps deleteLargestThenCreate (NewRepository Tables.empty).1).GetLists =
      ([{ ID := 1, Name := "List 1" }, { ID := 3, Name := "List 3" }], none) ∧
    (runOps deleteLargestThenCreate (NewRepository Tables.empty).1).GetItems 1 =
      ([{ ID := 1, ListID := 1, Name := "Item 1", Category := "Category", Checked := false },
        { ID := 4, ListID := 1, Name := "Item 4", Category := "Category", Checked := false }],
       none) ∧
    (createdListIDs deleteLargestThenCreate (NewRepository Tables.empty).1).Nodup :=
  ⟨by decide, by decide, by decide, by decide,
    (created_ids_never_reused deleteLargestThenCreate).1⟩
